import Mathlib

/-!
# Verification of the SMA-crossover backtesting core (ClawSkills)

Shallow embedding of the signal-evaluation / trade-simulation state machine of
the repository, principally `technical-backtesting/scripts/sma50_realistic.py`
(`run_backtest` and `print_report`), together with the pieces of
`technical-backtesting/scripts/sma50_v5.py` (dual EOD check with pending
entry/exit latch) and `sma-daily-trading/scripts/backtest_v3.py` (hybrid stop
labelling, win rate) that the specification's testable properties refer to.

Prices are modelled as rationals; Python floats carry no claim-relevant
rounding behaviour here.  Timestamps and calendar dates are naturals carried
separately on each bar, exactly as the Python loop carries `ts` and
`d = ts.date()`.
-/

namespace ClawSkills

/-- Exit reasons recorded in the trade ledger.
`stop` = "STOP", `smaExit` = "SMA EXIT", `smaExitEod` = "SMA EXIT (EOD)",
`endOfData` = "OPEN" (forced close of a still-open position at end of data). -/
inductive ExitReason where
  | stop
  | smaExit
  | smaExitEod
  | endOfData
  deriving DecidableEq, Repr

/-- One record of the trade ledger (the dict appended in `run_backtest`,
`sma50_realistic.py` lines 196-202).  Created with the exit fields `none`
and completed in place on exit. -/
structure Trade where
  tradeNum : Nat
  entryDt : Nat
  entryPrice : ℚ
  rawEntryPrice : ℚ
  exitDt : Option Nat
  exitPrice : Option ℚ
  rawExitPrice : Option ℚ
  pnl : Option ℚ
  exitReason : Option ExitReason
  slippageCost : ℚ
  commission : ℚ
  deriving DecidableEq, Repr

/-- One aligned intraday observation of the simulation loop of
`sma50_realistic.py`: a common timestamp `ts` of the signal and trade
instrument 15-minute series.  `qqqClose` is the signal instrument's close,
`high`/`low`/`close` the trade instrument's bar.  `isFirstBar`/`isLastBar`
mirror `ts == first_bar_of_day.get(d)` / `ts == last_bar_of_day.get(d)`. -/
structure Bar where
  ts : Nat
  date : Nat
  qqqClose : ℚ
  high : ℚ
  low : ℚ
  close : ℚ
  isFirstBar : Bool
  isLastBar : Bool
  deriving DecidableEq, Repr

/-- Configuration surface of `run_backtest` (`parse_args` defaults:
fixed stop 0.075, trailing stop 0.15, slippage 0.0005, commission 0).
`smaByDate` is the `sma_by_date` / `daily_close_by_date` pair built on lines
61-67: one entry `(date, sma, dailyClose)` per daily row whose rolling SMA is
defined. -/
structure Config where
  startingCapital : ℚ
  fixedStopPct : ℚ
  trailingStopPct : ℚ
  slippage : ℚ
  commission : ℚ
  smaByDate : List (Nat × ℚ × ℚ)
  deriving Repr

/-- Mutable loop state of `run_backtest` (lines 87-100). -/
structure SimState where
  capital : ℚ
  shares : ℚ
  entryPrice : ℚ
  highest : ℚ
  lastExitDate : Option Nat
  lastExitWasEod : Bool
  trades : List Trade
  inPosition : Bool
  prevAboveSma : Option Bool
  pendingEodExit : Bool
  totalSlippageCost : ℚ
  totalCommissionCost : ℚ
  deriving DecidableEq, Repr

/-- `apply_slippage` (lines 47-52): buying costs more, selling gets less. -/
def applySlippage (price : ℚ) (isBuy : Bool) (slippagePct : ℚ) : ℚ :=
  if isBuy then price * (1 + slippagePct) else price * (1 - slippagePct)

/-- Python's `round(x, 2)` on the recorded P&L, modelled as round-half-up to
cents (the tie-breaking mode is irrelevant to every property checked here). -/
def round2 (q : ℚ) : ℚ := (⌊q * 100 + 1 / 2⌋ : ℚ) / 100

/-- `trades[-1].update({...})`: rewrite the last record of the ledger.
(On an empty ledger the Python would raise; every call site is guarded by
`in_position`, under which the ledger is provably nonempty.) -/
def updateLast (f : Trade → Trade) : List Trade → List Trade
  | [] => []
  | [t] => [f t]
  | t :: u :: ts => t :: updateLast f (u :: ts)

/-- `sma_val = sma_by_date[max(sd for sd in sma_by_date if sd < d)]`
(lines 104-107): the SMA recorded for the greatest date strictly before `d`,
`none` when no such date exists (the bar is then skipped). -/
def prevSmaLookup (smaByDate : List (Nat × ℚ × ℚ)) (d : Nat) : Option ℚ :=
  (smaByDate.foldl
    (fun acc e =>
      if e.1 < d then
        match acc with
        | none => some e
        | some b => if b.1 ≤ e.1 then some e else some b
      else acc)
    none).map (fun e => e.2.1)

/-- `d in sma_by_date and d in daily_close_by_date` lookup of line 209-211,
returning `(eod_sma, eod_close)` for date `d`. -/
def eodLookup (smaByDate : List (Nat × ℚ × ℚ)) (d : Nat) : Option (ℚ × ℚ) :=
  (smaByDate.find? (fun e => e.1 == d)).map (fun e => (e.2.1, e.2.2))

/-- Shared body of the two exit blocks (lines 122-135 and 165-179): fill at
`rawExitPrice` less sell slippage, charge commission, complete the most
recent ledger record, and flatten the position. -/
def closeTrade (cfg : Config) (b : Bar) (reason : ExitReason)
    (rawExitPrice : ℚ) (s : SimState) : SimState :=
  let fillPrice := applySlippage rawExitPrice false cfg.slippage
  let slipCost := s.shares * |rawExitPrice - fillPrice|
  let pnl := s.shares * (fillPrice - s.entryPrice) - cfg.commission
  { s with
    totalSlippageCost := s.totalSlippageCost + slipCost
    totalCommissionCost := s.totalCommissionCost + cfg.commission
    capital := s.shares * fillPrice - cfg.commission
    trades := updateLast
      (fun t => { t with
        exitDt := some b.ts
        exitPrice := some fillPrice
        rawExitPrice := some rawExitPrice
        pnl := some (round2 pnl)
        exitReason := some reason
        slippageCost := round2 slipCost
        commission := cfg.commission })
      s.trades
    inPosition := false
    shares := 0
    lastExitDate := some b.date }

/-- Lines 121-139: a pending end-of-day exit is executed at the first bar of
the session when still in position (exit at the bar's close, reason
"SMA EXIT (EOD)", `last_exit_was_eod` set, running intraday state forced to
bearish). -/
def pendingExecPhase (cfg : Config) (b : Bar) (s : SimState) : SimState :=
  if s.pendingEodExit ∧ b.isFirstBar ∧ s.inPosition then
    { closeTrade cfg b .smaExitEod b.close s with
      lastExitWasEod := true
      pendingEodExit := false
      prevAboveSma := some false }
  else s

/-- Lines 141-142: the pending-exit latch is cleared at the first bar in any
case. -/
def pendingClearPhase (b : Bar) (s : SimState) : SimState :=
  if s.pendingEodExit ∧ b.isFirstBar then { s with pendingEodExit := false }
  else s

/-- Lines 121-142 combined. -/
def pendingExitPhase (cfg : Config) (b : Bar) (s : SimState) : SimState :=
  pendingClearPhase b (pendingExecPhase cfg b s)

/-- Line 150: `active_stop = max(fixed_stop, trailing_stop)`. -/
def activeStopVal (cfg : Config) (entryPrice highest : ℚ) : ℚ :=
  max (entryPrice * (1 - cfg.fixedStopPct)) (highest * (1 - cfg.trailingStopPct))

/-- Lines 157-160: fill at the stop itself unless the bar gapped entirely
below it (`high < active_stop`), in which case fill at the bar's close. -/
def stopFillPrice (high close activeStop : ℚ) : ℚ :=
  if high < activeStop then close else activeStop

/-- Lines 155-163: the intraday exit decision, in source order — the hybrid
stop first, else the bullish-to-bearish signal transition (suppressed on the
session's last bar). -/
def exitDecision (prevAbove aboveSma isLastBar : Bool)
    (low high close activeStop : ℚ) : Option (ExitReason × ℚ) :=
  if low ≤ activeStop then some (.stop, stopFillPrice high close activeStop)
  else if prevAbove ∧ ¬aboveSma ∧ ¬isLastBar then some (.smaExit, close)
  else none

/-- Lines 145-180 (`if in_position:`): raise the high-water mark, compute the
hybrid stop, and exit if the decision fires. -/
def openBranch (cfg : Config) (b : Bar) (aboveSma prevAbove : Bool)
    (s : SimState) : SimState :=
  let highest := if b.high > s.highest then b.high else s.highest
  let activeStop := activeStopVal cfg s.entryPrice highest
  let s1 := { s with highest := highest }
  match exitDecision prevAbove aboveSma b.isLastBar b.low b.high b.close activeStop with
  | some (reason, rawExitPrice) =>
      { closeTrade cfg b reason rawExitPrice s1 with lastExitWasEod := false }
  | none => s1

/-- Lines 182-204 (`elif not prev_above_sma and above_sma:`): on a
bearish-to-bullish transition, either hit the T+1 cooldown (skip the rest of
the bar, Python's `continue`; second component `true`) or invest all capital
at the bar's close and append an open ledger record. -/
def entryBranch (cfg : Config) (b : Bar) (aboveSma prevAbove : Bool)
    (s : SimState) : SimState × Bool :=
  if ¬prevAbove ∧ aboveSma then
    if s.lastExitDate = some b.date ∧ s.lastExitWasEod = false then
      ({ s with prevAboveSma := some aboveSma }, true)
    else
      let rawEntryPrice := b.close
      let entryPrice := applySlippage rawEntryPrice true cfg.slippage
      let capital := s.capital - cfg.commission
      let shares := capital / entryPrice
      let slipCost := shares * |entryPrice - rawEntryPrice|
      ({ s with
          capital := capital
          shares := shares
          entryPrice := entryPrice
          highest := b.high
          totalCommissionCost := s.totalCommissionCost + cfg.commission
          totalSlippageCost := s.totalSlippageCost + slipCost
          trades := s.trades ++
            [{ tradeNum := s.trades.length + 1
               entryDt := b.ts
               entryPrice := entryPrice
               rawEntryPrice := rawEntryPrice
               exitDt := none
               exitPrice := none
               rawExitPrice := none
               pnl := none
               exitReason := none
               slippageCost := round2 slipCost
               commission := cfg.commission }]
          inPosition := true
          lastExitWasEod := false }, false)
  else (s, false)

/-- Lines 208-215: at the session's last bar, recompute the signal from the
day's own close vs the day's own SMA; latch a pending exit when in position
and bearish; reset the running intraday state to the EOD value. -/
def eodPhase (cfg : Config) (b : Bar) (s : SimState) : SimState :=
  if b.isLastBar then
    match eodLookup cfg.smaByDate b.date with
    | some (eodSma, eodClose) =>
        let eodAbove := decide (eodClose > eodSma)
        let s1 :=
          if s.inPosition ∧ eodAbove = false then { s with pendingEodExit := true }
          else s
        { s1 with prevAboveSma := some eodAbove }
    | none => s
  else s

/-- Lines 145-204: the exit branch while in position, else the entry branch
(the Python `elif` reads the possibly phase-1-updated `in_position` and
`prev_above_sma`); second component `true` means the cooldown `continue`. -/
def branchPhase (cfg : Config) (b : Bar) (aboveSma : Bool) (s1 : SimState) :
    SimState × Bool :=
  if s1.inPosition then
    (openBranch cfg b aboveSma (s1.prevAboveSma.getD false) s1, false)
  else entryBranch cfg b aboveSma (s1.prevAboveSma.getD false) s1

/-- Body of the loop once the previous-day SMA was found and the running
state is seeded: pending-EOD handling, exit/entry branch, then
`prev_above_sma = above_sma` and the EOD check (both skipped by the
cooldown `continue`). -/
def stepCore (cfg : Config) (b : Bar) (aboveSma : Bool) (s : SimState) :
    SimState :=
  match branchPhase cfg b aboveSma (pendingExitPhase cfg b s) with
  | (s2, true) => s2
  | (s2, false) => eodPhase cfg b { s2 with prevAboveSma := some aboveSma }

/-- One iteration of the loop `for ts in common_ts:` (lines 102-215). -/
def step (cfg : Config) (s : SimState) (b : Bar) : SimState :=
  match prevSmaLookup cfg.smaByDate b.date with
  | none => s
  | some smaVal =>
    match s.prevAboveSma with
    | none => { s with prevAboveSma := some (decide (b.qqqClose > smaVal)) }
    | some _ => stepCore cfg b (decide (b.qqqClose > smaVal)) s

/-- Loop state before the first bar (lines 89-100). -/
def initState (cfg : Config) : SimState :=
  { capital := cfg.startingCapital
    shares := 0
    entryPrice := 0
    highest := 0
    lastExitDate := none
    lastExitWasEod := false
    trades := []
    inPosition := false
    prevAboveSma := none
    pendingEodExit := false
    totalSlippageCost := 0
    totalCommissionCost := 0 }

/-- The full simulation loop over the aligned bar sequence. -/
def runLoop (cfg : Config) (bars : List Bar) (s : SimState) : SimState :=
  bars.foldl (step cfg) s

/-- `in_position and trades and trades[-1]["exit_dt"] is None` (line 218). -/
def lastTradeOpen (trades : List Trade) : Bool :=
  match trades.getLast? with
  | some t => t.exitDt.isNone
  | none => false

/-- Lines 217-230: force-close a position still open after the final bar, at
the trade instrument's last available close, reason "OPEN"; no commission. -/
def closeOpenPosition (cfg : Config) (lastTs : Nat) (lastClose : ℚ)
    (s : SimState) : SimState :=
  if s.inPosition ∧ lastTradeOpen s.trades then
    let fillPrice := applySlippage lastClose false cfg.slippage
    let slipCost := s.shares * |lastClose - fillPrice|
    let pnl := s.shares * (fillPrice - s.entryPrice)
    { s with
      totalSlippageCost := s.totalSlippageCost + slipCost
      trades := updateLast
        (fun t => { t with
          exitDt := some lastTs
          exitPrice := some fillPrice
          rawExitPrice := some lastClose
          pnl := some (round2 pnl)
          exitReason := some .endOfData
          slippageCost := round2 slipCost
          commission := 0 })
        s.trades
      capital := s.shares * fillPrice }
  else s

/-- `run_backtest` end to end: the loop followed by the forced close, where
`lastTs`/`lastClose` are `tqqq_15.index[-1]` / `tqqq_15.iloc[-1]["close"]`. -/
def runBacktest (cfg : Config) (bars : List Bar) (lastTs : Nat)
    (lastClose : ℚ) : SimState :=
  closeOpenPosition cfg lastTs lastClose (runLoop cfg bars (initState cfg))

/-! ## The moving-average evaluator

`qqq_daily["close"].rolling(period).mean()` (line 59): at 0-indexed position
`i` the value is undefined ("not ready", pandas NaN) while fewer than `w`
closes are available, i.e. while `i + 1 < w`, and is the arithmetic mean of
the `w` closes ending at position `i` otherwise. -/

/-- Rolling arithmetic mean with window `w` over a close series. -/
def rollingMean (w : Nat) (xs : List ℚ) : List (Option ℚ) :=
  (List.range xs.length).map
    (fun i => if i + 1 < w then none
              else some (((xs.drop (i + 1 - w)).take w).sum / (w : ℚ)))

/-- Lines 61-67: keep, per daily row whose SMA is defined, the triple
`(date, sma, close)` — the `sma_by_date` and `daily_close_by_date` dicts. -/
def buildSmaByDate (daily : List (Nat × ℚ)) (w : Nat) : List (Nat × ℚ × ℚ) :=
  (daily.zip (rollingMean w (daily.map (fun e => e.2)))).filterMap
    (fun p => p.2.map (fun v => (p.1.1, v, p.1.2)))

/-! ## Report statistics -/

/-- `t['pnl'] and t['pnl'] > 0` (line 243): a recorded, truthy, positive P&L. -/
def pnlWin (t : Trade) : Bool :=
  match t.pnl with
  | some p => decide (p ≠ 0) && decide (0 < p)
  | none => false

/-- `print_report`'s win rate (lines 243-249):
`len(wins) / max(len(closed), 1)` where `wins` are the trades with truthy
positive P&L and `closed` the trades whose exit reason is not `'OPEN'`. -/
def winRateRealistic (trades : List Trade) : ℚ :=
  let wins := trades.filter pnlWin
  let closed := trades.filter
    (fun t => decide (t.exitReason ≠ some ExitReason.endOfData))
  (wins.length : ℚ) / ((max closed.length 1 : Nat) : ℚ)

/-- `backtest_v3.py` line 255:
`win_rate = len(winning) / len(trades) * 100 if trades else 0`, over the
P&L column of the full ledger (the `END` forced close included). -/
def winRateV3 (pnls : List ℚ) : ℚ :=
  if pnls.isEmpty then 0
  else ((pnls.filter (fun p => decide (0 < p))).length : ℚ) / (pnls.length : ℚ) * 100

/-! ## The hybrid-stop block of `backtest_v3.py` (lines 93-99) -/

/-- Stop label of `backtest_v3.py` line 99. -/
inductive StopType where
  | trail
  | fixedStop
  deriving DecidableEq, Repr

/-- Lines 93-99 of `backtest_v3.py`: both stop levels (percentages given in
percent there, hence `/ 100`), the effective stop `max fixed trailing`, and
the label `'TRAIL' if trailing_stop >= fixed_stop else 'FIXED'`. -/
def v3Stops (entryPrice highSinceEntry fixedStopPct trailingStopPct : ℚ) :
    ℚ × ℚ × ℚ × StopType :=
  let fixedStop := entryPrice * (1 - fixedStopPct / 100)
  let trailingStop := highSinceEntry * (1 - trailingStopPct / 100)
  (fixedStop, trailingStop, max fixedStop trailingStop,
   if trailingStop ≥ fixedStop then .trail else .fixedStop)

/-! ## The dual EOD check of `sma50_v5.py`

`sma50_v5.py` keeps, besides the running intraday state, a separate EOD
signal state `eod_above_sma` and a pending latch
`pending_eod_exit ∈ {False, True, "entry"}`; the claims about the EOD
entry latch refer to this variant. -/

/-- `pending_eod_exit`: `False` / `True` / `"entry"`. -/
inductive V5Pending where
  | idle
  | exit
  | entry
  deriving DecidableEq, Repr

/-- Trade record of `sma50_v5.py` (no slippage/commission fields). -/
structure V5Trade where
  tradeNum : Nat
  entryDt : Nat
  entryPrice : ℚ
  exitDt : Option Nat
  exitPrice : Option ℚ
  pnl : Option ℚ
  exitReason : Option ExitReason
  deriving DecidableEq, Repr

/-- A common 15-minute timestamp as seen by the v5 loop.  `isMarketOpen`
mirrors `ts.hour == 9 and ts.minute == 30`; `isLastBar` mirrors
`ts == last_bar_of_day[d]`. -/
structure V5Bar where
  ts : Nat
  date : Nat
  qqqClose : ℚ
  high : ℚ
  low : ℚ
  close : ℚ
  isMarketOpen : Bool
  isLastBar : Bool
  deriving DecidableEq, Repr

/-- The three lookups built on lines 42-56 of `sma50_v5.py`:
`prev_sma` (date to previous trading day's SMA, only when both rows are
valid) and `daily_sma`/`daily_close` merged as `(date, sma, close)`. -/
structure V5Config where
  prevSma : List (Nat × ℚ)
  valid : List (Nat × ℚ × ℚ)
  deriving Repr

/-- Loop state of `sma50_v5.py` (lines 60-75). -/
structure V5State where
  capital : ℚ
  shares : ℚ
  entryPrice : ℚ
  highest : ℚ
  lastExitDate : Option Nat
  trades : List V5Trade
  inPosition : Bool
  prevAboveSma : Option Bool
  eodAboveSma : Option Bool
  pending : V5Pending
  deriving DecidableEq, Repr

/-- v5 strategy constants (lines 61-62). -/
def v5FixedStopPct : ℚ := 75 / 1000

/-- v5 strategy constants (lines 61-62). -/
def v5TrailingStopPct : ℚ := 15 / 100

/-- Dict lookup on an association list with unique keys. -/
def lookupQ (l : List (Nat × ℚ)) (d : Nat) : Option ℚ :=
  (l.find? (fun e => e.1 == d)).map (fun e => e.2)

/-- Lookup in the merged `daily_sma`/`daily_close` table. -/
def lookupEodV5 (l : List (Nat × ℚ × ℚ)) (d : Nat) : Option (ℚ × ℚ) :=
  (l.find? (fun e => e.1 == d)).map (fun e => e.2)

/-- `trades[-1].update({...})` for v5 records. -/
def updateLastV5 (f : V5Trade → V5Trade) : List V5Trade → List V5Trade
  | [] => []
  | [t] => [f t]
  | t :: u :: ts => t :: updateLastV5 f (u :: ts)

/-- Lines 114-125 of `sma50_v5.py`: execute a pending EOD exit at the 9:30
bar, at the bar's close; note the guard `pending_eod_exit and is_market_open
and in_position` treats the string `"entry"` as truthy. -/
def v5PendingExitPhase (b : V5Bar) (s : V5State) : V5State :=
  if s.pending ≠ V5Pending.idle ∧ b.isMarketOpen ∧ s.inPosition then
    let pnl := s.shares * (b.close - s.entryPrice)
    { s with
      capital := s.shares * b.close
      trades := updateLastV5
        (fun t => { t with
          exitDt := some b.ts
          exitPrice := some b.close
          pnl := some (round2 pnl)
          exitReason := some .smaExitEod })
        s.trades
      inPosition := false
      shares := 0
      lastExitDate := some b.date
      pending := .idle }
  else s

/-- Lines 127-139: execute a pending EOD entry at the 9:30 bar, unless an
exit already happened on the same date (T+1); the latch is cleared in
either case. -/
def v5PendingEntryPhase (b : V5Bar) (s : V5State) : V5State :=
  if s.inPosition = false ∧ s.pending = V5Pending.entry ∧ b.isMarketOpen then
    let s1 :=
      if s.lastExitDate ≠ some b.date then
        { s with
          entryPrice := b.close
          shares := s.capital / b.close
          highest := b.high
          trades := s.trades ++
            [{ tradeNum := s.trades.length + 1
               entryDt := b.ts
               entryPrice := b.close
               exitDt := none
               exitPrice := none
               pnl := none
               exitReason := none }]
          inPosition := true }
      else s
    { s1 with pending := .idle }
  else s

/-- Lines 141-142: `if isinstance(pending_eod_exit, str): pending_eod_exit =
False` — an unexecuted pending entry is dropped on any other bar. -/
def v5DropStrPending (s : V5State) : V5State :=
  if s.pending = V5Pending.entry then { s with pending := .idle } else s

/-- Lines 144-172 of `sma50_v5.py`: intraday exit (stop first, fill always at
the stop level — v5 has no gap-through handling — else signal exit at the
close, with no last-bar suppression), else entry on a bullish cross subject
to T+1; second component `true` means Python's `continue` (skip the EOD
check). -/
def v5Branch (b : V5Bar) (aboveSma prevAbove : Bool) (s : V5State) :
    V5State × Bool :=
  if s.inPosition then
    let highest := if b.high > s.highest then b.high else s.highest
    let fixedStop := s.entryPrice * (1 - v5FixedStopPct)
    let trailingStop := highest * (1 - v5TrailingStopPct)
    let activeStop := max fixedStop trailingStop
    let s1 := { s with highest := highest }
    let dec : Option (ExitReason × ℚ) :=
      if b.low ≤ activeStop then some (.stop, activeStop)
      else if prevAbove ∧ ¬aboveSma then some (.smaExit, b.close)
      else none
    match dec with
    | some (reason, exitPrice) =>
        let pnl := s1.shares * (exitPrice - s1.entryPrice)
        ({ s1 with
            capital := s1.shares * exitPrice
            trades := updateLastV5
              (fun t => { t with
                exitDt := some b.ts
                exitPrice := some exitPrice
                pnl := some (round2 pnl)
                exitReason := some reason })
              s1.trades
            inPosition := false
            shares := 0
            lastExitDate := some b.date }, false)
    | none => (s1, false)
  else
    if ¬prevAbove ∧ aboveSma then
      if s.lastExitDate = some b.date then
        ({ s with prevAboveSma := some aboveSma }, true)
      else
        ({ s with
            entryPrice := b.close
            shares := s.capital / b.close
            highest := b.high
            trades := s.trades ++
              [{ tradeNum := s.trades.length + 1
                 entryDt := b.ts
                 entryPrice := b.close
                 exitDt := none
                 exitPrice := none
                 pnl := none
                 exitReason := none }]
            inPosition := true }, false)
    else (s, false)

/-- Lines 192-206 of `sma50_v5.py`: at the session's last bar, compute the
new EOD state `daily_close[d] > daily_sma[d]`; when a previous EOD state
exists, latch a pending exit on a bullish-to-bearish EOD flip while in
position, or a pending entry on a bearish-to-bullish EOD flip while flat;
then store the new EOD state and reset the running intraday state to it. -/
def v5EodPhase (cfg : V5Config) (b : V5Bar) (s : V5State) : V5State :=
  if b.isLastBar then
    match lookupEodV5 cfg.valid b.date with
    | some (eodSma, eodClose) =>
        let newEod := decide (eodClose > eodSma)
        let s1 :=
          match s.eodAboveSma with
          | some prevEod =>
              if s.inPosition ∧ prevEod = true ∧ newEod = false then
                { s with pending := .exit }
              else if s.inPosition = false ∧ prevEod = false ∧ newEod = true then
                { s with pending := .entry }
              else s
          | none => s
        { s1 with eodAboveSma := some newEod, prevAboveSma := some newEod }
    | none => s
  else s

/-- Lines 114-142 combined: both pending blocks and the string-latch drop. -/
def v5PendingPhases (b : V5Bar) (s : V5State) : V5State :=
  v5DropStrPending (v5PendingEntryPhase b (v5PendingExitPhase b s))

/-- Loop body once the previous-day SMA was found and the running state is
seeded. -/
def v5StepCore (cfg : V5Config) (b : V5Bar) (aboveSma : Bool)
    (s : V5State) : V5State :=
  match v5Branch b aboveSma ((v5PendingPhases b s).prevAboveSma.getD false)
      (v5PendingPhases b s) with
  | (s2, true) => s2
  | (s2, false) => v5EodPhase cfg b { s2 with prevAboveSma := some aboveSma }

/-- One iteration of the v5 loop (lines 93-206). -/
def v5Step (cfg : V5Config) (s : V5State) (b : V5Bar) : V5State :=
  match lookupQ cfg.prevSma b.date with
  | none => s
  | some smaVal =>
    match s.prevAboveSma with
    | none => { s with prevAboveSma := some (decide (b.qqqClose > smaVal)) }
    | some _ => v5StepCore cfg b (decide (b.qqqClose > smaVal)) s

/-- Lines 83-88: the EOD state is seeded from the last valid daily row before
a cutoff date (hard-coded 2021-01-05 in the script). -/
def v5InitEod (valid : List (Nat × ℚ × ℚ)) (cutoff : Nat) : Option Bool :=
  ((valid.filter (fun e => e.1 < cutoff)).getLast?).map
    (fun e => decide (e.2.2 > e.2.1))

/-- v5 loop state before the first bar (lines 63-75, 83-88). -/
def v5InitState (valid : List (Nat × ℚ × ℚ)) (cutoff : Nat) : V5State :=
  { capital := 10000
    shares := 0
    entryPrice := 0
    highest := 0
    lastExitDate := none
    trades := []
    inPosition := false
    prevAboveSma := none
    eodAboveSma := v5InitEod valid cutoff
    pending := .idle }

/-- The v5 simulation loop. -/
def v5Run (cfg : V5Config) (bars : List V5Bar) (s : V5State) : V5State :=
  bars.foldl (v5Step cfg) s

/-- Lines 53-54 of `sma50_v5.py` (and likewise `sma50_v6.py`): `prev_sma[d]`
is defined for a valid day `d` whose immediately preceding daily row is also
valid, and holds that previous row's SMA. -/
def buildPrevSmaV5 (daily : List (Nat × ℚ)) (w : Nat) : List (Nat × ℚ) :=
  let rows := daily.zip (rollingMean w (daily.map (fun e => e.2)))
  (rows.zip (rows.drop 1)).filterMap
    (fun p =>
      match p.1.2, p.2.2 with
      | some prevSma, some _ => some (p.2.1.1, prevSma)
      | _, _ => none)

/-! ## Helper lemmas -/

theorem updateLast_concat (f : Trade → Trade) (ts : List Trade) (t : Trade) :
    updateLast f (ts ++ [t]) = ts ++ [f t] := by
  induction ts with
  | nil => rfl
  | cons a ts ih =>
      cases ts with
      | nil => rfl
      | cons b ts2 =>
          simp only [List.cons_append, updateLast] at ih ⊢
          exact congrArg (a :: ·) ih

theorem updateLast_length (f : Trade → Trade) (ts : List Trade) :
    (updateLast f ts).length = ts.length := by
  induction ts with
  | nil => rfl
  | cons a ts ih =>
      cases ts with
      | nil => rfl
      | cons b ts2 => simpa [updateLast] using ih

/-- Python's `if tqqq_high > highest: highest = tqqq_high` is the running
maximum. -/
theorem highestUpdate_eq_max (h x : ℚ) :
    (if x > h then x else h) = max h x := by
  rcases le_or_lt x h with hle | hlt
  · rw [if_neg (not_lt.mpr hle), max_eq_left hle]
  · rw [if_pos hlt, max_eq_right hlt.le]

/-- Number of ledger records whose exit fields are still null. -/
def openCount (trades : List Trade) : Nat :=
  (trades.filter (fun t => t.exitDt.isNone)).length

theorem openCount_append (a b : List Trade) :
    openCount (a ++ b) = openCount a + openCount b := by
  simp [openCount, List.filter_append]

theorem openCount_eq_zero_iff (ts : List Trade) :
    openCount ts = 0 ↔ ∀ t ∈ ts, t.exitDt.isSome := by
  simp only [openCount, List.length_eq_zero, List.filter_eq_nil_iff]
  constructor
  · intro h t ht
    have := h t ht
    simpa [Option.isNone_iff_eq_none, Option.isSome_iff_ne_none] using this
  · intro h t ht
    have := h t ht
    simpa [Option.isNone_iff_eq_none, Option.isSome_iff_ne_none] using this

/-! ## Concrete fixtures used by witnesses and counterexamples -/

/-- Two valid daily rows with window 1 (so `sma(d) = close(d)`):
`sma_by_date = {10: 100, 11: 100}`.  Every later bar date sees SMA 100 as
the previous day's SMA, and no EOD row of its own.
`smaTwoDays_from_daily` shows it is what lines 58-67 build from the daily
close series `[100, 100]`. -/
def smaTwoDays : List (Nat × ℚ × ℚ) := [(10, 100, 100), (11, 100, 100)]

theorem smaTwoDays_from_daily :
    buildSmaByDate [(10, 100), (11, 100)] 1 = smaTwoDays := by
  norm_num [buildSmaByDate, rollingMean, smaTwoDays,
    show List.range 2 = [0, 1] from by decide, List.zipWith,
    List.filterMap_cons, List.filterMap_nil]

/-- A frictionless configuration with the script's default stops. -/
def cfgT : Config :=
  { startingCapital := 10000
    fixedStopPct := 75 / 1000
    trailingStopPct := 15 / 100
    slippage := 0
    commission := 0
    smaByDate := smaTwoDays }

/-- A flat state with one closed trade on date 22, reachable shape for
exercising the step function at single bars. -/
def tradeClosed22 : Trade :=
  { tradeNum := 1, entryDt := 2100, entryPrice := 50, rawEntryPrice := 50
    exitDt := some 2200, exitPrice := some (185 / 4), rawExitPrice := some (185 / 4)
    pnl := some (-750), exitReason := some .stop, slippageCost := 0, commission := 0 }

/-- An open trade entered at ts 2100. -/
def tradeOpen21 : Trade :=
  { tradeNum := 1, entryDt := 2100, entryPrice := 50, rawEntryPrice := 50
    exitDt := none, exitPrice := none, rawExitPrice := none
    pnl := none, exitReason := none, slippageCost := 0, commission := 0 }

/-- A state holding an open position entered at 50 with high-water mark 51. -/
def sOpenT : SimState :=
  { capital := 10000, shares := 200, entryPrice := 50, highest := 51
    lastExitDate := none, lastExitWasEod := false, trades := [tradeOpen21]
    inPosition := true, prevAboveSma := some true, pendingEodExit := false
    totalSlippageCost := 0, totalCommissionCost := 0 }

/-- A flat state whose last (stop-driven) exit was on date 22. -/
def sFlatT : SimState :=
  { capital := 9250, shares := 0, entryPrice := 50, highest := 51
    lastExitDate := some 22, lastExitWasEod := false, trades := [tradeClosed22]
    inPosition := false, prevAboveSma := some false, pendingEodExit := false
    totalSlippageCost := 0, totalCommissionCost := 0 }

/-- A bar on date 22 showing a bullish cross (previous state below). -/
def barCross22 : Bar :=
  { ts := 2250, date := 22, qqqClose := 110, high := 41, low := 39, close := 40
    isFirstBar := false, isLastBar := false }

/-- A bar on date 24 showing a bullish cross, clear of any cooldown. -/
def barCross24 : Bar :=
  { ts := 2400, date := 24, qqqClose := 110, high := 41, low := 39, close := 40
    isFirstBar := true, isLastBar := false }

/-! ## C7 — moving-average readiness -/

/-- C7: for every close series and window `w ≥ 1`, the rolling mean is
"not ready" (`none`) at every 0-indexed position `i < w - 1` (equivalently
`i + 1 < w`) and equals the arithmetic mean of the last `w` closes at every
`i ≥ w - 1`; and a bar whose date has no prior SMA available is skipped
entirely by the simulation step — state unchanged, no default substituted. -/
theorem c7_sma_readiness (xs : List ℚ) (w i : Nat) (cfg : Config)
    (s : SimState) (b : Bar) (hw : 1 ≤ w) (hi : i < xs.length) :
    (i + 1 < w → (rollingMean w xs)[i]? = some none) ∧
    (w ≤ i + 1 → (rollingMean w xs)[i]? =
      some (some (((xs.take (i + 1)).drop (i + 1 - w)).sum / (w : ℚ)))) ∧
    (prevSmaLookup cfg.smaByDate b.date = none → step cfg s b = s) := by
  have hmap : (rollingMean w xs)[i]? =
      some (if i + 1 < w then none
            else some (((xs.drop (i + 1 - w)).take w).sum / (w : ℚ))) := by
    simp [rollingMean, List.getElem?_map, List.getElem?_range, hi]
  refine ⟨?_, ?_, ?_⟩
  · intro hlt
    rw [hmap, if_pos hlt]
  · intro hge
    rw [hmap, if_neg (by omega)]
    have hseg : (xs.take (i + 1)).drop (i + 1 - w) = (xs.drop (i + 1 - w)).take w := by
      rw [List.drop_take]
      congr 1
      omega
    rw [hseg]
  · intro hnone
    unfold step
    rw [hnone]

/-- Witness for C7 at `xs = [1, 2, 3]`, `w = 2`: position 0 is not ready,
position 2 is the mean of the last two closes. -/
theorem c7_sma_readiness_witness :
    (rollingMean 2 [(1 : ℚ), 2, 3])[0]? = some none ∧
    (rollingMean 2 [(1 : ℚ), 2, 3])[2]? =
      some (some ((([(1 : ℚ), 2, 3].take 3).drop 1).sum / (2 : ℚ))) := by
  constructor
  · exact (c7_sma_readiness [(1 : ℚ), 2, 3] 2 0 cfgT sOpenT barCross22
      (by decide) (by decide)).1 (by decide)
  · exact (c7_sma_readiness [(1 : ℚ), 2, 3] 2 2 cfgT sOpenT barCross22
      (by decide) (by decide)).2.1 (by decide)

/-- Completing the ledger through `closeTrade` rewrites exactly the last
record, with the given raw exit price and reason. -/
theorem closeTrade_getLast_proj (cfg : Config) (b : Bar) (r : ExitReason)
    (pr : ℚ) (s : SimState) (pre : List Trade) (t : Trade)
    (htr : s.trades = pre ++ [t]) :
    ((closeTrade cfg b r pr s).trades.getLast?).map
      (fun u => (u.rawExitPrice, u.exitReason)) = some (some pr, some r) := by
  simp only [closeTrade]
  rw [htr, updateLast_concat, List.getLast?_concat]
  rfl

/-- The open-position branch on a firing exit decision is `closeTrade` over
the state with the raised high-water mark. -/
theorem openBranch_eq_of_dec (cfg : Config) (b : Bar) (a p : Bool)
    (s : SimState) (r : ExitReason) (pr : ℚ)
    (hdec : exitDecision p a b.isLastBar b.low b.high b.close
      (activeStopVal cfg s.entryPrice (max s.highest b.high)) = some (r, pr)) :
    openBranch cfg b a p s =
      { closeTrade cfg b r pr { s with highest := max s.highest b.high } with
        lastExitWasEod := false } := by
  unfold openBranch
  simp only [highestUpdate_eq_max]
  rw [hdec]

/-- The open-position branch on a silent exit decision only raises the
high-water mark. -/
theorem openBranch_eq_of_none (cfg : Config) (b : Bar) (a p : Bool)
    (s : SimState)
    (hdec : exitDecision p a b.isLastBar b.low b.high b.close
      (activeStopVal cfg s.entryPrice (max s.highest b.high)) = none) :
    openBranch cfg b a p s = { s with highest := max s.highest b.high } := by
  unfold openBranch
  simp only [highestUpdate_eq_max]
  rw [hdec]

/-! ## C2 — fixed exit priority -/

/-- C2: on a bar processed while in position, at most one exit action fires
and the conditions are tested in fixed priority order — the hybrid stop
(`low ≤ active_stop`) first, then the bullish-to-bearish transition
(suppressed on the session's last bar).  When the stop condition holds the
decision is STOP with the gap-aware fill, whatever the signal does; a
SIGNAL_EXIT decision forces the stop not to have fired, a true-to-false
transition, and a non-last bar; when both conditions are true the reason is
STOP, never SIGNAL_EXIT; and when no condition fires the open-position
branch changes nothing but the high-water mark. -/
theorem c2_exit_priority (prevAbove aboveSma isLastBar : Bool)
    (low high close activeStop : ℚ) (cfg : Config) (b : Bar) (a p : Bool)
    (s : SimState) :
    (low ≤ activeStop →
      exitDecision prevAbove aboveSma isLastBar low high close activeStop =
        some (.stop, stopFillPrice high close activeStop)) ∧
    (∀ pr, exitDecision prevAbove aboveSma isLastBar low high close activeStop =
        some (ExitReason.smaExit, pr) →
      ¬low ≤ activeStop ∧ prevAbove = true ∧ aboveSma = false ∧
        isLastBar = false ∧ pr = close) ∧
    (low ≤ activeStop →
      (exitDecision prevAbove aboveSma isLastBar low high close activeStop).map
          Prod.fst = some ExitReason.stop) ∧
    (exitDecision p a b.isLastBar b.low b.high b.close
        (activeStopVal cfg s.entryPrice (max s.highest b.high)) = none →
      openBranch cfg b a p s = { s with highest := max s.highest b.high }) := by
  refine ⟨?_, ?_, ?_, ?_⟩
  · intro hlow
    unfold exitDecision
    rw [if_pos hlow]
  · intro pr hdec
    unfold exitDecision at hdec
    by_cases hlow : low ≤ activeStop
    · rw [if_pos hlow] at hdec
      exact absurd (congrArg (fun o => o.map Prod.fst) hdec) (by simp)
    · rw [if_neg hlow] at hdec
      by_cases hsig : prevAbove = true ∧ ¬aboveSma = true ∧ ¬isLastBar = true
      · rw [if_pos hsig] at hdec
        obtain ⟨h1, h2, h3⟩ := hsig
        refine ⟨hlow, h1, by simpa using h2, by simpa using h3, ?_⟩
        exact (Prod.mk.injEq _ _ _ _ ▸ (Option.some.injEq _ _ ▸ hdec)).2.symm
      · rw [if_neg hsig] at hdec
        exact absurd hdec (by simp)
  · intro hlow
    unfold exitDecision
    rw [if_pos hlow]
    rfl
  · intro hnone
    unfold openBranch
    simp only [highestUpdate_eq_max] at hnone ⊢
    rw [hnone]

/-- Witness for C2: with the stop condition and a bearish cross both true on
the same data, the decision is STOP. -/
theorem c2_exit_priority_witness :
    (exitDecision true false false 39 41 40 (185 / 4 : ℚ)).map Prod.fst =
      some ExitReason.stop :=
  (c2_exit_priority true false false 39 41 40 (185 / 4 : ℚ) cfgT barCross22
    false true sOpenT).2.2.1 (by norm_num)

/-! ## C3 — stop exit fill price -/

/-- C3: on a stop-triggered exit, the raw fill price is the active stop
itself when the bar's high is above the stop, and the bar's close when the
bar's high is below the stop (gap-through); and in the open-position branch
a firing stop completes the most recent open ledger record with exactly
that raw exit price and reason STOP. -/
theorem c3_stop_fill (high close stop : ℚ) (cfg : Config) (b : Bar)
    (a p : Bool) (s : SimState) (pre : List Trade) (t : Trade) :
    (stop < high → stopFillPrice high close stop = stop) ∧
    (high < stop → stopFillPrice high close stop = close) ∧
    (s.trades = pre ++ [t] →
      b.low ≤ activeStopVal cfg s.entryPrice (max s.highest b.high) →
      ((openBranch cfg b a p s).trades.getLast?).map
          (fun u => (u.rawExitPrice, u.exitReason)) =
        some (some (stopFillPrice b.high b.close
          (activeStopVal cfg s.entryPrice (max s.highest b.high))),
          some ExitReason.stop)) := by
  refine ⟨?_, ?_, ?_⟩
  · intro hgt
    unfold stopFillPrice
    rw [if_neg (not_lt.mpr hgt.le)]
  · intro hlt
    unfold stopFillPrice
    rw [if_pos hlt]
  · intro htr hlow
    have hdec : exitDecision p a b.isLastBar b.low b.high b.close
        (activeStopVal cfg s.entryPrice (max s.highest b.high)) =
        some (.stop, stopFillPrice b.high b.close
          (activeStopVal cfg s.entryPrice (max s.highest b.high))) := by
      unfold exitDecision
      rw [if_pos hlow]
    rw [openBranch_eq_of_dec cfg b a p s _ _ hdec]
    exact closeTrade_getLast_proj cfg b _ _ _ pre t htr

/-- Witness for C3 at a concrete open state: a stop fires (low 39 below the
fixed stop 46.25) without a gap (high 47 above 46.25), and the ledger's last
record is completed at the stop price with reason STOP. -/
theorem c3_stop_fill_witness :
    ((openBranch cfgT
        { ts := 2200, date := 22, qqqClose := 110, high := 47, low := 39
          close := 40, isFirstBar := false, isLastBar := false }
        true true sOpenT).trades.getLast?).map
      (fun u => (u.rawExitPrice, u.exitReason)) =
    some (some (stopFillPrice 47 40
      (activeStopVal cfgT sOpenT.entryPrice (max sOpenT.highest 47))),
      some ExitReason.stop) :=
  (c3_stop_fill 47 40 (185 / 4 : ℚ) cfgT
    { ts := 2200, date := 22, qqqClose := 110, high := 47, low := 39
      close := 40, isFirstBar := false, isLastBar := false }
    true true sOpenT [] tradeOpen21).2.2 rfl (by norm_num [cfgT, sOpenT, activeStopVal])

/-! ## C4 — the hybrid stop -/

/-- C4: the active stop is always
`max (entry_price * (1 - fixed_stop_pct)) (high_since_entry * (1 - trailing_stop_pct))`,
where the high-water mark is initialized to the entry bar's high by the
entry branch and raised to `max highest bar.high` on every open bar (while
the entry price is left untouched), so it is the running maximum of the
trade instrument's highs since entry; and in `backtest_v3.py`, whose stop
exits carry the FIXED/TRAIL label, the effective stop is the same `max` and
an exact tie of the two levels is labelled TRAIL. -/
theorem c4_hybrid_stop (cfg : Config) (b : Bar) (a p : Bool) (s : SimState)
    (e h fpct tpct : ℚ) :
    (activeStopVal cfg e h =
      max (e * (1 - cfg.fixedStopPct)) (h * (1 - cfg.trailingStopPct))) ∧
    ((openBranch cfg b a p s).highest = max s.highest b.high) ∧
    ((openBranch cfg b a p s).entryPrice = s.entryPrice) ∧
    (p = false → a = true →
      ¬(s.lastExitDate = some b.date ∧ s.lastExitWasEod = false) →
      (entryBranch cfg b a p s).1.highest = b.high ∧
      (entryBranch cfg b a p s).1.entryPrice =
        applySlippage b.close true cfg.slippage) ∧
    ((v3Stops e h fpct tpct).2.2.1 =
      max (e * (1 - fpct / 100)) (h * (1 - tpct / 100))) ∧
    ((v3Stops e h fpct tpct).2.1 = (v3Stops e h fpct tpct).1 →
      (v3Stops e h fpct tpct).2.2.2 = StopType.trail) := by
  refine ⟨rfl, ?_, ?_, ?_, rfl, ?_⟩
  · unfold openBranch
    simp only [highestUpdate_eq_max]
    cases hdec : exitDecision p a b.isLastBar b.low b.high b.close
        (activeStopVal cfg s.entryPrice (max s.highest b.high)) with
    | none => rfl
    | some pr =>
        cases pr with
        | mk r q => rfl
  · unfold openBranch
    simp only [highestUpdate_eq_max]
    cases hdec : exitDecision p a b.isLastBar b.low b.high b.close
        (activeStopVal cfg s.entryPrice (max s.highest b.high)) with
    | none => rfl
    | some pr =>
        cases pr with
        | mk r q => rfl
  · intro hp ha hcool
    unfold entryBranch
    rw [if_pos (by simp [hp, ha]), if_neg hcool]
    exact ⟨rfl, rfl⟩
  · intro htie
    unfold v3Stops at htie ⊢
    simp only at htie ⊢
    rw [if_pos (le_of_eq htie.symm)]

/-- Witness for C4's entry conjunct: a bullish cross from a flat state with
no same-day exit initializes the high-water mark to the entry bar's high. -/
theorem c4_hybrid_stop_witness :
    (entryBranch cfgT barCross24 true false sFlatT).1.highest = barCross24.high ∧
    (entryBranch cfgT barCross24 true false sFlatT).1.entryPrice =
      applySlippage barCross24.close true cfgT.slippage ∧
    (v3Stops 100 100 15 15).2.2.2 = StopType.trail := by
  have h4 := c4_hybrid_stop cfgT barCross24 true false sFlatT 100 100 15 15
  refine ⟨(h4.2.2.2.1 rfl rfl (by decide)).1, (h4.2.2.2.1 rfl rfl (by decide)).2, ?_⟩
  exact h4.2.2.2.2.2 (by norm_num [v3Stops])

/-! ## The ledger coupling invariant -/

/-- The ledger/state coupling maintained by every step: the number of open
records equals one exactly while in position, every record but the last is
closed, and closed records have every exit field filled. -/
def InvL (s : SimState) : Prop :=
  openCount s.trades = (if s.inPosition then 1 else 0) ∧
  (∀ t ∈ s.trades.dropLast, t.exitDt.isSome) ∧
  (∀ t ∈ s.trades, t.exitDt.isSome →
    t.exitPrice.isSome ∧ t.rawExitPrice.isSome ∧ t.pnl.isSome ∧
      t.exitReason.isSome)

theorem invL_congr (s s' : SimState) (htr : s'.trades = s.trades)
    (hp : s'.inPosition = s.inPosition) (h : InvL s) : InvL s' := by
  obtain ⟨h1, h2, h3⟩ := h
  refine ⟨?_, ?_, ?_⟩
  · rw [htr, hp]; exact h1
  · rw [htr]; exact h2
  · rw [htr]; exact h3

/-- While in position, the ledger is a list of closed records followed by
one open record. -/
theorem invL_decomp (s : SimState) (h : InvL s) (hpos : s.inPosition = true) :
    ∃ pre t, s.trades = pre ++ [t] ∧ t.exitDt = none ∧
      ∀ u ∈ pre, u.exitDt.isSome := by
  obtain ⟨h1, h2, _⟩ := h
  rw [hpos] at h1
  simp only [if_pos] at h1
  rcases List.eq_nil_or_concat s.trades with hnil | ⟨pre, t, htr⟩
  · rw [hnil] at h1
    simp [openCount] at h1
  · rw [List.concat_eq_append] at htr
    have hpre : ∀ u ∈ pre, u.exitDt.isSome := by
      intro u hu
      exact h2 u (by rw [htr, List.dropLast_concat]; exact hu)
    refine ⟨pre, t, htr, ?_, hpre⟩
    have hpre0 : openCount pre = 0 := (openCount_eq_zero_iff pre).mpr hpre
    rw [htr, openCount_append, hpre0] at h1
    cases hx : t.exitDt with
    | none => rfl
    | some e => simp [openCount, List.filter, hx] at h1

@[simp] theorem closeTrade_inPosition (cfg : Config) (b : Bar)
    (r : ExitReason) (pr : ℚ) (s : SimState) :
    (closeTrade cfg b r pr s).inPosition = false := rfl

theorem closeTrade_trades (cfg : Config) (b : Bar) (r : ExitReason) (pr : ℚ)
    (s : SimState) :
    (closeTrade cfg b r pr s).trades = updateLast
      (fun t => { t with
        exitDt := some b.ts
        exitPrice := some (applySlippage pr false cfg.slippage)
        rawExitPrice := some pr
        pnl := some (round2
          (s.shares * (applySlippage pr false cfg.slippage - s.entryPrice) -
            cfg.commission))
        exitReason := some r
        slippageCost := round2
          (s.shares * |pr - applySlippage pr false cfg.slippage|)
        commission := cfg.commission }) s.trades := rfl

theorem closeTrade_invL (cfg : Config) (b : Bar) (r : ExitReason) (pr : ℚ)
    (s : SimState) (h : InvL s) (hpos : s.inPosition = true) :
    InvL (closeTrade cfg b r pr s) := by
  obtain ⟨pre, t, htr, _, hpre⟩ := invL_decomp s h hpos
  obtain ⟨_, _, h3⟩ := h
  refine ⟨?_, ?_, ?_⟩
  · rw [closeTrade_trades, htr, updateLast_concat, closeTrade_inPosition,
      openCount_append, (openCount_eq_zero_iff pre).mpr hpre]
    simp [openCount, List.filter]
  · rw [closeTrade_trades, htr, updateLast_concat, List.dropLast_concat]
    exact hpre
  · intro u hu _
    rw [closeTrade_trades, htr, updateLast_concat] at hu
    rcases List.mem_append.mp hu with hu | hu
    · exact h3 u (by rw [htr]; exact List.mem_append.mpr (Or.inl hu))
        (hpre u hu)
    · rcases List.mem_singleton.mp hu with rfl
      exact ⟨rfl, rfl, rfl, rfl⟩

theorem pendingExecPhase_invL (cfg : Config) (b : Bar) (s : SimState)
    (h : InvL s) : InvL (pendingExecPhase cfg b s) := by
  unfold pendingExecPhase
  by_cases hc : s.pendingEodExit = true ∧ b.isFirstBar = true ∧
      s.inPosition = true
  · rw [if_pos hc]
    exact invL_congr _ _ rfl rfl (closeTrade_invL cfg b _ _ s h hc.2.2)
  · rw [if_neg hc]
    exact h

theorem pendingExitPhase_invL (cfg : Config) (b : Bar) (s : SimState)
    (h : InvL s) : InvL (pendingExitPhase cfg b s) := by
  unfold pendingExitPhase pendingClearPhase
  have h1 := pendingExecPhase_invL cfg b s h
  by_cases hc : (pendingExecPhase cfg b s).pendingEodExit = true ∧
      b.isFirstBar = true
  · rw [if_pos hc]
    exact invL_congr _ _ rfl rfl h1
  · rw [if_neg hc]
    exact h1

theorem openBranch_invL (cfg : Config) (b : Bar) (a p : Bool) (s : SimState)
    (h : InvL s) (hpos : s.inPosition = true) :
    InvL (openBranch cfg b a p s) := by
  cases hdec : exitDecision p a b.isLastBar b.low b.high b.close
      (activeStopVal cfg s.entryPrice (max s.highest b.high)) with
  | none =>
      rw [openBranch_eq_of_none cfg b a p s hdec]
      exact invL_congr _ _ rfl rfl h
  | some rp =>
      cases rp with
      | mk r pr =>
          rw [openBranch_eq_of_dec cfg b a p s r pr hdec]
          refine invL_congr _ _ rfl rfl ?_
          exact closeTrade_invL cfg b r pr _ (invL_congr _ _ rfl rfl h) hpos

theorem entryBranch_invL (cfg : Config) (b : Bar) (a p : Bool) (s : SimState)
    (h : InvL s) (hflat : s.inPosition = false) :
    InvL (entryBranch cfg b a p s).1 := by
  unfold entryBranch
  by_cases hcross : ¬p = true ∧ a = true
  · rw [if_pos hcross]
    by_cases hcool : s.lastExitDate = some b.date ∧ s.lastExitWasEod = false
    · rw [if_pos hcool]
      exact invL_congr _ _ rfl rfl h
    · rw [if_neg hcool]
      obtain ⟨h1, _, h3⟩ := h
      rw [hflat] at h1
      simp only [if_neg Bool.false_ne_true] at h1
      dsimp only
      refine ⟨?_, ?_, ?_⟩
      · rw [openCount_append, h1]
        simp [openCount, List.filter]
      · have hall := (openCount_eq_zero_iff _).mp h1
        intro u hu
        rw [List.dropLast_concat] at hu
        exact hall u hu
      · intro u hu hcl
        rcases List.mem_append.mp hu with hu | hu
        · exact h3 u hu hcl
        · rcases List.mem_singleton.mp hu with rfl
          simp at hcl
  · rw [if_neg hcross]
    exact h

theorem eodPhase_invL (cfg : Config) (b : Bar) (s : SimState) (h : InvL s) :
    InvL (eodPhase cfg b s) := by
  unfold eodPhase
  by_cases hl : b.isLastBar = true
  · rw [if_pos hl]
    cases he : eodLookup cfg.smaByDate b.date with
    | none => exact h
    | some pr =>
        cases pr with
        | mk eodSma eodClose =>
            dsimp only
            split
            · exact invL_congr _ _ rfl rfl h
            · exact invL_congr _ _ rfl rfl h
  · rw [if_neg hl]
    exact h

theorem stepCore_invL (cfg : Config) (b : Bar) (a : Bool) (s : SimState)
    (h : InvL s) : InvL (stepCore cfg b a s) := by
  have h1 := pendingExitPhase_invL cfg b s h
  unfold stepCore
  cases hbr : branchPhase cfg b a (pendingExitPhase cfg b s) with
  | mk s2 skip =>
      have h2 : InvL s2 := by
        unfold branchPhase at hbr
        by_cases hip : (pendingExitPhase cfg b s).inPosition = true
        · rw [if_pos hip] at hbr
          cases hbr
          exact openBranch_invL cfg b a _ _ h1 hip
        · rw [if_neg hip] at hbr
          have := entryBranch_invL cfg b a
            ((pendingExitPhase cfg b s).prevAboveSma.getD false)
            (pendingExitPhase cfg b s) h1 (Bool.not_eq_true _ ▸ hip)
          rw [hbr] at this
          exact this
      cases skip with
      | true => exact h2
      | false => exact eodPhase_invL cfg b _ (invL_congr _ _ rfl rfl h2)

theorem step_invL (cfg : Config) (s : SimState) (b : Bar) (h : InvL s) :
    InvL (step cfg s b) := by
  unfold step
  cases prevSmaLookup cfg.smaByDate b.date with
  | none => exact h
  | some smaVal =>
      cases s.prevAboveSma with
      | none => exact invL_congr _ _ rfl rfl h
      | some pa => exact stepCore_invL cfg b _ s h

theorem initState_invL (cfg : Config) : InvL (initState cfg) := by
  refine ⟨?_, ?_, ?_⟩ <;> simp [initState, openCount]

theorem runLoop_invL (cfg : Config) (bars : List Bar) (s : SimState)
    (h : InvL s) : InvL (runLoop cfg bars s) := by
  induction bars generalizing s with
  | nil => exact h
  | cons b bars ih =>
      rw [runLoop, List.foldl_cons]
      exact ih (step cfg s b) (step_invL cfg s b h)

theorem pendingExecPhase_not (cfg : Config) (b : Bar) (s : SimState)
    (h : ¬(s.pendingEodExit = true ∧ b.isFirstBar = true ∧
      s.inPosition = true)) : pendingExecPhase cfg b s = s := by
  unfold pendingExecPhase
  rw [if_neg h]

theorem pendingClearPhase_not (b : Bar) (s : SimState)
    (h : ¬(s.pendingEodExit = true ∧ b.isFirstBar = true)) :
    pendingClearPhase b s = s := by
  unfold pendingClearPhase
  rw [if_neg h]

theorem pendingExitPhase_not_first (cfg : Config) (b : Bar) (s : SimState)
    (h : ¬(s.pendingEodExit = true ∧ b.isFirstBar = true)) :
    pendingExitPhase cfg b s = s := by
  unfold pendingExitPhase
  rw [pendingExecPhase_not cfg b s (fun hc => h ⟨hc.1, hc.2.1⟩),
    pendingClearPhase_not b s h]

theorem step_eq_of_no_sma (cfg : Config) (s : SimState) (b : Bar)
    (hsma : prevSmaLookup cfg.smaByDate b.date = none) :
    step cfg s b = s := by
  unfold step
  rw [hsma]

theorem step_eq_of_no_prev (cfg : Config) (s : SimState) (b : Bar) (v : ℚ)
    (hsma : prevSmaLookup cfg.smaByDate b.date = some v)
    (hpv : s.prevAboveSma = none) :
    step cfg s b =
      { s with prevAboveSma := some (decide (b.qqqClose > v)) } := by
  unfold step
  rw [hsma, hpv]

theorem step_eq_core (cfg : Config) (s : SimState) (b : Bar) (v : ℚ)
    (pa : Bool) (hsma : prevSmaLookup cfg.smaByDate b.date = some v)
    (hpv : s.prevAboveSma = some pa) :
    step cfg s b = stepCore cfg b (decide (b.qqqClose > v)) s := by
  unfold step
  rw [hsma, hpv]

theorem stepCore_open_eq (cfg : Config) (b : Bar) (a : Bool) (s : SimState)
    (hpos : (pendingExitPhase cfg b s).inPosition = true) :
    stepCore cfg b a s =
      eodPhase cfg b
        { openBranch cfg b a
            ((pendingExitPhase cfg b s).prevAboveSma.getD false)
            (pendingExitPhase cfg b s) with prevAboveSma := some a } := by
  unfold stepCore branchPhase
  rw [if_pos hpos]

theorem stepCore_flat_eq (cfg : Config) (b : Bar) (a : Bool) (s : SimState)
    (s2 : SimState) (skip : Bool)
    (hflat : (pendingExitPhase cfg b s).inPosition = false)
    (hbr : entryBranch cfg b a
      ((pendingExitPhase cfg b s).prevAboveSma.getD false)
      (pendingExitPhase cfg b s) = (s2, skip)) :
    stepCore cfg b a s =
      (if skip then s2
       else eodPhase cfg b { s2 with prevAboveSma := some a }) := by
  unfold stepCore branchPhase
  rw [if_neg (by simp [hflat]), hbr]
  cases skip with
  | true => rfl
  | false => rfl

theorem openBranch_trades_length (cfg : Config) (b : Bar) (a p : Bool)
    (s : SimState) :
    ((openBranch cfg b a p s).trades).length = s.trades.length := by
  cases hdec : exitDecision p a b.isLastBar b.low b.high b.close
      (activeStopVal cfg s.entryPrice (max s.highest b.high)) with
  | none => rw [openBranch_eq_of_none cfg b a p s hdec]
  | some rp =>
      cases rp with
      | mk r pr =>
          rw [openBranch_eq_of_dec cfg b a p s r pr hdec]
          exact updateLast_length _ _

theorem eodPhase_preserves (cfg : Config) (b : Bar) (s : SimState) :
    (eodPhase cfg b s).trades = s.trades ∧
    (eodPhase cfg b s).inPosition = s.inPosition ∧
    (eodPhase cfg b s).capital = s.capital ∧
    (eodPhase cfg b s).shares = s.shares := by
  unfold eodPhase
  split
  · cases eodLookup cfg.smaByDate b.date with
    | none => exact ⟨rfl, rfl, rfl, rfl⟩
    | some pr =>
        cases pr with
        | mk eodSma eodClose =>
            dsimp only
            split
            · exact ⟨rfl, rfl, rfl, rfl⟩
            · exact ⟨rfl, rfl, rfl, rfl⟩
  · exact ⟨rfl, rfl, rfl, rfl⟩

theorem entryBranch_flat_shape (cfg : Config) (b : Bar) (a p : Bool)
    (s : SimState) :
    ((entryBranch cfg b a p s).1.trades = s.trades ∧
     (entryBranch cfg b a p s).1.capital = s.capital ∧
     (entryBranch cfg b a p s).1.shares = s.shares ∧
     (entryBranch cfg b a p s).1.inPosition = s.inPosition) ∨
    (∃ t, (entryBranch cfg b a p s).1.trades = s.trades ++ [t] ∧
      t.exitDt = none ∧ (entryBranch cfg b a p s).1.inPosition = true) := by
  unfold entryBranch
  split
  · split
    · exact Or.inl ⟨rfl, rfl, rfl, rfl⟩
    · exact Or.inr ⟨_, rfl, rfl, rfl⟩
  · exact Or.inl ⟨rfl, rfl, rfl, rfl⟩

/-! ## C1 — single open position, single open ledger record -/

/-- C1: at every simulated instant the number of ledger records with null
exit fields equals one exactly while a position is OPEN (so at most one open
record ever exists); a bar processed while OPEN (with no pending-EOD exit
due) never appends a record, so an entry attempted while OPEN opens nothing;
and a bar processed while FLAT (with no pending exit latched) either leaves
capital, shares and the ledger unchanged and stays FLAT — in particular
every exit attempted while FLAT is a no-op — or performs exactly one entry,
appending a single open record. -/
theorem c1_single_open_position (cfg : Config) (bars : List Bar)
    (s : SimState) (b : Bar) :
    (openCount (runLoop cfg bars (initState cfg)).trades =
      (if (runLoop cfg bars (initState cfg)).inPosition then 1 else 0)) ∧
    (s.inPosition = true → ¬(s.pendingEodExit = true ∧ b.isFirstBar = true) →
      (step cfg s b).trades.length = s.trades.length) ∧
    (s.inPosition = false → s.pendingEodExit = false →
      ((step cfg s b).trades = s.trades ∧ (step cfg s b).capital = s.capital ∧
        (step cfg s b).shares = s.shares ∧
        (step cfg s b).inPosition = false) ∨
      (∃ t, (step cfg s b).trades = s.trades ++ [t] ∧ t.exitDt = none ∧
        (step cfg s b).inPosition = true)) := by
  refine ⟨(runLoop_invL cfg bars _ (initState_invL cfg)).1, ?_, ?_⟩
  · intro hpos h2
    cases hsma : prevSmaLookup cfg.smaByDate b.date with
    | none => rw [step_eq_of_no_sma cfg s b hsma]
    | some v =>
        cases hpv : s.prevAboveSma with
        | none => rw [step_eq_of_no_prev cfg s b v hsma hpv]
        | some pa =>
            rw [step_eq_core cfg s b v pa hsma hpv,
              stepCore_open_eq cfg b _ s
                (by rw [pendingExitPhase_not_first cfg b s h2]; exact hpos),
              (eodPhase_preserves cfg b _).1]
            show ((openBranch cfg b _ _ (pendingExitPhase cfg b s)).trades).length
              = s.trades.length
            rw [openBranch_trades_length, pendingExitPhase_not_first cfg b s h2]
  · intro hflat hpend
    cases hsma : prevSmaLookup cfg.smaByDate b.date with
    | none =>
        rw [step_eq_of_no_sma cfg s b hsma]
        exact Or.inl ⟨rfl, rfl, rfl, hflat⟩
    | some v =>
        cases hpv : s.prevAboveSma with
        | none =>
            rw [step_eq_of_no_prev cfg s b v hsma hpv]
            exact Or.inl ⟨rfl, rfl, rfl, hflat⟩
        | some pa =>
            have hnone : pendingExitPhase cfg b s = s :=
              pendingExitPhase_not_first cfg b s (by simp [hpend])
            cases hbr : entryBranch cfg b (decide (b.qqqClose > v))
                ((pendingExitPhase cfg b s).prevAboveSma.getD false)
                (pendingExitPhase cfg b s) with
            | mk s2 skip =>
                rw [step_eq_core cfg s b v pa hsma hpv,
                  stepCore_flat_eq cfg b _ s s2 skip
                    (by rw [hnone]; exact hflat) hbr]
                have hshape := entryBranch_flat_shape cfg b
                  (decide (b.qqqClose > v))
                  ((pendingExitPhase cfg b s).prevAboveSma.getD false)
                  (pendingExitPhase cfg b s)
                rw [hbr, hnone] at hshape
                cases skip with
                | true =>
                    rw [if_pos rfl]
                    rcases hshape with ⟨ht, hc, hs, hp⟩ | ⟨t, ht, hop, hp⟩
                    · exact Or.inl ⟨ht, hc, hs, hp.trans hflat⟩
                    · exact Or.inr ⟨t, ht, hop, hp⟩
                | false =>
                    rw [if_neg Bool.false_ne_true]
                    obtain ⟨he1, he2, he3, he4⟩ := eodPhase_preserves cfg b
                      { s2 with prevAboveSma := some (decide (b.qqqClose > v)) }
                    rcases hshape with ⟨ht, hc, hs, hp⟩ | ⟨t, ht, hop, hp⟩
                    · exact Or.inl ⟨he1.trans ht, he3.trans hc, he4.trans hs,
                        he2.trans (hp.trans hflat)⟩
                    · exact Or.inr ⟨t, he1.trans ht, hop, he2.trans hp⟩

/-- Witness for C1: at a concrete open state an in-loop bar appends nothing,
and at a concrete flat state the bar performs exactly one entry. -/
theorem c1_single_open_position_witness :
    ((step cfgT sOpenT barCross24).trades.length = sOpenT.trades.length) ∧
    (((step cfgT sFlatT barCross24).trades = sFlatT.trades ∧
        (step cfgT sFlatT barCross24).capital = sFlatT.capital ∧
        (step cfgT sFlatT barCross24).shares = sFlatT.shares ∧
        (step cfgT sFlatT barCross24).inPosition = false) ∨
      (∃ t, (step cfgT sFlatT barCross24).trades = sFlatT.trades ++ [t] ∧
        t.exitDt = none ∧ (step cfgT sFlatT barCross24).inPosition = true)) :=
  ⟨(c1_single_open_position cfgT [] sOpenT barCross24).2.1 rfl (by decide),
   (c1_single_open_position cfgT [] sFlatT barCross24).2.2 rfl rfl⟩

/-! ## C8 — forced close at end of data -/

theorem closeOpenPosition_fires (cfg : Config) (lastTs : Nat) (lastClose : ℚ)
    (s : SimState) (hpos : s.inPosition = true)
    (hopen : lastTradeOpen s.trades = true) :
    (closeOpenPosition cfg lastTs lastClose s).trades = updateLast
      (fun t => { t with
        exitDt := some lastTs
        exitPrice := some (applySlippage lastClose false cfg.slippage)
        rawExitPrice := some lastClose
        pnl := some (round2
          (s.shares * (applySlippage lastClose false cfg.slippage -
            s.entryPrice)))
        exitReason := some .endOfData
        slippageCost := round2
          (s.shares * |lastClose - applySlippage lastClose false cfg.slippage|)
        commission := 0 }) s.trades := by
  unfold closeOpenPosition
  rw [if_pos ⟨hpos, hopen⟩]

theorem closeOpenPosition_skip (cfg : Config) (lastTs : Nat) (lastClose : ℚ)
    (s : SimState)
    (h : ¬(s.inPosition = true ∧ lastTradeOpen s.trades = true)) :
    closeOpenPosition cfg lastTs lastClose s = s := by
  unfold closeOpenPosition
  rw [if_neg h]

/-- C8: after the full run — loop plus forced close — every ledger record
has all its exit fields filled (no phantom open position is reported); and
whenever the loop ends with a position still open, the final record is the
forced close at the trade instrument's last available timestamp and close,
with reason END_OF_DATA ("OPEN"). -/
theorem c8_force_close (cfg : Config) (bars : List Bar) (lastTs : Nat)
    (lastClose : ℚ) :
    (∀ t ∈ (runBacktest cfg bars lastTs lastClose).trades,
      t.exitDt.isSome ∧ t.exitPrice.isSome ∧ t.pnl.isSome ∧
        t.exitReason.isSome) ∧
    ((runLoop cfg bars (initState cfg)).inPosition = true →
      ((runBacktest cfg bars lastTs lastClose).trades.getLast?).map
        (fun t => (t.exitReason, t.exitDt, t.rawExitPrice, t.exitPrice)) =
      some (some ExitReason.endOfData, some lastTs, some lastClose,
        some (applySlippage lastClose false cfg.slippage))) := by
  have hinv : InvL (runLoop cfg bars (initState cfg)) :=
    runLoop_invL cfg bars _ (initState_invL cfg)
  by_cases hpos : (runLoop cfg bars (initState cfg)).inPosition = true
  · obtain ⟨pre, t, htr, ht, hpre⟩ :=
      invL_decomp (runLoop cfg bars (initState cfg)) hinv hpos
    have hopen : lastTradeOpen (runLoop cfg bars (initState cfg)).trades =
        true := by
      unfold lastTradeOpen
      rw [htr, List.getLast?_concat]
      simp [ht]
    have htr' : (runBacktest cfg bars lastTs lastClose).trades =
        pre ++ [{ t with
          exitDt := some lastTs
          exitPrice := some (applySlippage lastClose false cfg.slippage)
          rawExitPrice := some lastClose
          pnl := some (round2
            ((runLoop cfg bars (initState cfg)).shares *
              (applySlippage lastClose false cfg.slippage -
                (runLoop cfg bars (initState cfg)).entryPrice)))
          exitReason := some .endOfData
          slippageCost := round2
            ((runLoop cfg bars (initState cfg)).shares *
              |lastClose - applySlippage lastClose false cfg.slippage|)
          commission := 0 }] := by
      show (closeOpenPosition cfg lastTs lastClose _).trades = _
      rw [closeOpenPosition_fires cfg lastTs lastClose _ hpos hopen, htr,
        updateLast_concat]
    constructor
    · intro u hu
      rw [htr'] at hu
      rcases List.mem_append.mp hu with hu | hu
      · obtain ⟨h1, _, h3, h4⟩ := hinv.2.2 u
          (by rw [htr]; exact List.mem_append.mpr (Or.inl hu)) (hpre u hu)
        exact ⟨hpre u hu, h1, h3, h4⟩
      · rcases List.mem_singleton.mp hu with rfl
        exact ⟨rfl, rfl, rfl, rfl⟩
    · intro _
      rw [htr', List.getLast?_concat]
      rfl
  · constructor
    · intro u hu
      have hskip : runBacktest cfg bars lastTs lastClose =
          runLoop cfg bars (initState cfg) :=
        closeOpenPosition_skip cfg lastTs lastClose _ (fun hc => hpos hc.1)
      rw [hskip] at hu
      have hflat : (runLoop cfg bars (initState cfg)).inPosition = false :=
        Bool.not_eq_true _ ▸ hpos
      have h0 : openCount (runLoop cfg bars (initState cfg)).trades = 0 := by
        have := hinv.1
        rw [hflat] at this
        simpa using this
      obtain ⟨h1, _, h3, h4⟩ :=
        hinv.2.2 u hu ((openCount_eq_zero_iff _).mp h0 u hu)
      exact ⟨(openCount_eq_zero_iff _).mp h0 u hu, h1, h3, h4⟩
    · intro hc
      exact absurd hc hpos

/-- First bar of the end-of-data scenario: date 20, signal below SMA. -/
def barEndA : Bar :=
  { ts := 2000, date := 20, qqqClose := 90, high := 46, low := 44
    close := 45, isFirstBar := true, isLastBar := true }

/-- Second and final bar: date 21, bullish cross, entry at close 50. -/
def barEndB : Bar :=
  { ts := 2100, date := 21, qqqClose := 110, high := 51, low := 49
    close := 50, isFirstBar := true, isLastBar := true }

/-- A two-bar dataset whose bullish cross lands on the very last bar of the
trade-instrument series. -/
def barsEnd : List Bar := [barEndA, barEndB]

/-- The open trade entered on the final bar of `barsEnd`. -/
def tradeEndOpen : Trade :=
  { tradeNum := 1, entryDt := 2100, entryPrice := 50, rawEntryPrice := 50
    exitDt := none, exitPrice := none, rawExitPrice := none
    pnl := none, exitReason := none, slippageCost := 0, commission := 0 }

/-- Loop state after `barsEnd`: still in position, one open record. -/
def sEnd : SimState :=
  { capital := 10000, shares := 200, entryPrice := 50, highest := 51
    lastExitDate := none, lastExitWasEod := false, trades := [tradeEndOpen]
    inPosition := true, prevAboveSma := some true, pendingEodExit := false
    totalSlippageCost := 0, totalCommissionCost := 0 }

theorem hsma20 : prevSmaLookup cfgT.smaByDate 20 = some 100 := by
  norm_num [cfgT, prevSmaLookup, smaTwoDays]

theorem hsma21 : prevSmaLookup cfgT.smaByDate 21 = some 100 := by
  norm_num [cfgT, prevSmaLookup, smaTwoDays]

theorem hrunEndA :
    step cfgT (initState cfgT) barEndA =
      { initState cfgT with prevAboveSma := some false } := by
  rw [step_eq_of_no_prev cfgT (initState cfgT) barEndA 100 hsma20 rfl]
  norm_num [initState, barEndA, cfgT]

theorem hentryEnd :
    entryBranch cfgT barEndB true false
      { initState cfgT with prevAboveSma := some false } =
    ({ sEnd with prevAboveSma := some false }, false) := by
  norm_num [entryBranch, applySlippage, round2, cfgT, initState, barEndB,
    sEnd, tradeEndOpen]
  all_goals decide

theorem hrunEndB :
    step cfgT { initState cfgT with prevAboveSma := some false } barEndB =
      sEnd := by
  rw [step_eq_core cfgT _ barEndB 100 false hsma21 rfl,
    show decide (barEndB.qqqClose > (100 : ℚ)) = true from by
      norm_num [barEndB]]
  have hpend : pendingExitPhase cfgT barEndB
      { initState cfgT with prevAboveSma := some false } =
      { initState cfgT with prevAboveSma := some false } :=
    pendingExitPhase_not_first _ _ _ (by simp [initState])
  rw [stepCore_flat_eq cfgT barEndB true _
    { sEnd with prevAboveSma := some false } false (by rw [hpend]; rfl)
    (by rw [hpend]; exact hentryEnd)]
  rw [if_neg Bool.false_ne_true]
  norm_num [eodPhase, eodLookup, cfgT, smaTwoDays, barEndB, sEnd]

theorem hrunEnd : runLoop cfgT barsEnd (initState cfgT) = sEnd := by
  simp only [runLoop, barsEnd, List.foldl_cons, List.foldl_nil]
  rw [hrunEndA, hrunEndB]

/-- Witness for C8 on `barsEnd`: the loop ends still in position and the
forced close stamps END_OF_DATA at the last timestamp and close. -/
theorem c8_force_close_witness :
    ((runBacktest cfgT barsEnd 2100 50).trades.all
      (fun t => t.exitDt.isSome && t.exitPrice.isSome && t.pnl.isSome &&
        t.exitReason.isSome)) = true ∧
    ((runBacktest cfgT barsEnd 2100 50).trades.getLast?).map
      (fun t => (t.exitReason, t.exitDt, t.rawExitPrice, t.exitPrice)) =
    some (some ExitReason.endOfData, some 2100, some 50,
      some (applySlippage 50 false cfgT.slippage)) := by
  constructor
  · rw [List.all_eq_true]
    intro t ht
    obtain ⟨h1, h2, h3, h4⟩ := (c8_force_close cfgT barsEnd 2100 50).1 t ht
    simp [h1, h2, h3, h4]
  · exact (c8_force_close cfgT barsEnd 2100 50).2 (by rw [hrunEnd]; rfl)

/-! ## The timestamp invariant -/

/-- A ledger record is timestamp-sound relative to the last processed bar
timestamp `bound`: closed in the loop means entered strictly earlier (and
with an in-loop reason); still open means entered no later than `bound`. -/
def tradeTsOk (bound : Nat) (t : Trade) : Prop :=
  match t.exitDt with
  | some e => t.entryDt < e ∧ t.exitReason ≠ some ExitReason.endOfData
  | none => t.entryDt ≤ bound

/-- Every ledger record is timestamp-sound. -/
def InvT (bound : Nat) (s : SimState) : Prop := ∀ t ∈ s.trades, tradeTsOk bound t

theorem tradeTsOk_mono (b b' : Nat) (t : Trade) (h : b ≤ b')
    (ht : tradeTsOk b t) : tradeTsOk b' t := by
  unfold tradeTsOk at ht ⊢
  cases hx : t.exitDt with
  | some e =>
      rw [hx] at ht
      exact ht
  | none =>
      rw [hx] at ht
      exact le_trans ht h

theorem invT_mono (b b' : Nat) (s : SimState) (h : b ≤ b') (hs : InvT b s) :
    InvT b' s :=
  fun t ht => tradeTsOk_mono b b' t h (hs t ht)

theorem invT_congr (s s' : SimState) (htr : s'.trades = s.trades) (b : Nat)
    (h : InvT b s) : InvT b s' := by
  intro t ht
  rw [htr] at ht
  exact h t ht

theorem exitDecision_ne_end (p a l : Bool) (low high close stop : ℚ)
    (r : ExitReason) (pr : ℚ)
    (h : exitDecision p a l low high close stop = some (r, pr)) :
    r ≠ .endOfData := by
  unfold exitDecision at h
  split at h
  · cases h
    simp
  · split at h
    · cases h
      simp
    · simp at h

theorem closeTrade_invT (cfg : Config) (b : Bar) (r : ExitReason) (pr : ℚ)
    (s : SimState) (bound : Nat) (hr : r ≠ .endOfData) (hL : InvL s)
    (hpos : s.inPosition = true) (hT : InvT bound s) (hb : bound < b.ts) :
    InvT b.ts (closeTrade cfg b r pr s) := by
  obtain ⟨pre, t, htr, ht, _⟩ := invL_decomp s hL hpos
  intro u hu
  rw [closeTrade_trades, htr, updateLast_concat] at hu
  rcases List.mem_append.mp hu with hu | hu
  · exact tradeTsOk_mono bound b.ts u hb.le
      (hT u (by rw [htr]; exact List.mem_append.mpr (Or.inl hu)))
  · rcases List.mem_singleton.mp hu with rfl
    have htb : t.entryDt ≤ bound := by
      have hmem := hT t
        (by rw [htr]; exact List.mem_append.mpr (Or.inr (List.mem_singleton.mpr rfl)))
      unfold tradeTsOk at hmem
      rwa [ht] at hmem
    refine ⟨lt_of_le_of_lt htb hb, ?_⟩
    simp [hr]

theorem entryBranch_invT (cfg : Config) (b : Bar) (a p : Bool) (s : SimState)
    (bound : Nat) (hble : bound ≤ b.ts) (hT : InvT bound s) :
    InvT b.ts (entryBranch cfg b a p s).1 := by
  unfold entryBranch
  split
  · split
    · exact invT_congr s _ rfl b.ts (invT_mono bound b.ts s hble hT)
    · dsimp only
      intro u hu
      rcases List.mem_append.mp hu with hu | hu
      · exact tradeTsOk_mono bound b.ts u hble (hT u hu)
      · rcases List.mem_singleton.mp hu with rfl
        exact le_refl b.ts
  · exact invT_congr s _ rfl b.ts (invT_mono bound b.ts s hble hT)

theorem openBranch_invT (cfg : Config) (b : Bar) (a p : Bool) (s : SimState)
    (bound : Nat) (hL : InvL s) (hpos : s.inPosition = true)
    (hT : InvT bound s) (hb : bound < b.ts) :
    InvT b.ts (openBranch cfg b a p s) := by
  cases hdec : exitDecision p a b.isLastBar b.low b.high b.close
      (activeStopVal cfg s.entryPrice (max s.highest b.high)) with
  | none =>
      rw [openBranch_eq_of_none cfg b a p s hdec]
      exact invT_congr s _ rfl b.ts (invT_mono bound b.ts s hb.le hT)
  | some rp =>
      cases rp with
      | mk r pr =>
          rw [openBranch_eq_of_dec cfg b a p s r pr hdec]
          refine invT_congr _ _ rfl b.ts ?_
          exact closeTrade_invT cfg b r pr _ bound
            (exitDecision_ne_end _ _ _ _ _ _ _ _ _ hdec)
            (invL_congr _ _ rfl rfl hL) hpos
            (invT_congr s _ rfl bound hT) hb

theorem pendingClearPhase_preserves (b : Bar) (s : SimState) :
    (pendingClearPhase b s).trades = s.trades ∧
    (pendingClearPhase b s).inPosition = s.inPosition := by
  unfold pendingClearPhase
  split
  · exact ⟨rfl, rfl⟩
  · exact ⟨rfl, rfl⟩

theorem stepCore_invT (cfg : Config) (b : Bar) (a : Bool) (s : SimState)
    (bound : Nat) (hL : InvL s) (hT : InvT bound s) (hb : bound < b.ts) :
    InvT b.ts (stepCore cfg b a s) := by
  have hL1 : InvL (pendingExitPhase cfg b s) := pendingExitPhase_invL cfg b s hL
  have hT1 : InvT b.ts (pendingExitPhase cfg b s) ∧
      ((pendingExitPhase cfg b s).inPosition = true →
        (pendingExitPhase cfg b s).trades = s.trades ∧ InvT bound
          (pendingExitPhase cfg b s)) := by
    unfold pendingExitPhase
    by_cases hc : s.pendingEodExit = true ∧ b.isFirstBar = true ∧
        s.inPosition = true
    · have hexec : pendingExecPhase cfg b s =
          { closeTrade cfg b .smaExitEod b.close s with
            lastExitWasEod := true
            pendingEodExit := false
            prevAboveSma := some false } := by
        unfold pendingExecPhase
        rw [if_pos hc]
      obtain ⟨hp1, hp2⟩ := pendingClearPhase_preserves b (pendingExecPhase cfg b s)
      constructor
      · refine invT_congr _ _ hp1 b.ts ?_
        rw [hexec]
        refine invT_congr _ _ rfl b.ts ?_
        exact closeTrade_invT cfg b _ _ s bound (by simp) hL hc.2.2 hT hb
      · intro hip
        rw [hp2, hexec] at hip
        simp at hip
    · have hexec := pendingExecPhase_not cfg b s hc
      obtain ⟨hp1, hp2⟩ := pendingClearPhase_preserves b (pendingExecPhase cfg b s)
      have hp1' := hp1.trans (congrArg SimState.trades hexec)
      constructor
      · exact invT_congr _ _ hp1' b.ts (invT_mono bound b.ts s hb.le hT)
      · intro _
        exact ⟨hp1', invT_congr _ _ hp1' bound hT⟩
  unfold stepCore
  cases hbr : branchPhase cfg b a (pendingExitPhase cfg b s) with
  | mk s2 skip =>
      have h2 : InvT b.ts s2 := by
        unfold branchPhase at hbr
        by_cases hip : (pendingExitPhase cfg b s).inPosition = true
        · rw [if_pos hip] at hbr
          cases hbr
          obtain ⟨htr1, hT1b⟩ := hT1.2 hip
          exact openBranch_invT cfg b a _ _ bound hL1 hip hT1b hb
        · rw [if_neg hip] at hbr
          have := entryBranch_invT cfg b a
            ((pendingExitPhase cfg b s).prevAboveSma.getD false)
            (pendingExitPhase cfg b s) b.ts (le_refl _) hT1.1
          rw [hbr] at this
          exact this
      cases skip with
      | true => exact h2
      | false =>
          refine invT_congr _ _ ?_ b.ts h2
          exact (eodPhase_preserves cfg b _).1

theorem step_invT (cfg : Config) (s : SimState) (b : Bar) (bound : Nat)
    (hL : InvL s) (hT : InvT bound s) (hb : bound < b.ts) :
    InvT b.ts (step cfg s b) := by
  unfold step
  cases prevSmaLookup cfg.smaByDate b.date with
  | none => exact invT_mono bound b.ts s hb.le hT
  | some smaVal =>
      cases s.prevAboveSma with
      | none =>
          exact invT_congr s _ rfl b.ts (invT_mono bound b.ts s hb.le hT)
      | some pa => exact stepCore_invT cfg b _ s bound hL hT hb

theorem runLoop_invT (cfg : Config) (bars : List Bar) (s : SimState)
    (bound B : Nat) (hL : InvL s) (hT : InvT bound s)
    (hlt : ∀ x ∈ bars, bound < x.ts)
    (hsort : List.Pairwise (fun x y : Bar => x.ts < y.ts) bars)
    (hB1 : bound ≤ B) (hB2 : ∀ x ∈ bars, x.ts ≤ B) :
    InvT B (runLoop cfg bars s) := by
  induction bars generalizing s bound with
  | nil => exact invT_mono bound B s hB1 hT
  | cons b bars ih =>
      rw [runLoop, List.foldl_cons]
      obtain ⟨hhead, htail⟩ := List.pairwise_cons.mp hsort
      exact ih (step cfg s b) b.ts (step_invL cfg s b hL)
        (step_invT cfg s b bound hL hT (hlt b (List.mem_cons_self b bars)))
        (fun x hx => hhead x hx) htail
        (hB2 b (List.mem_cons_self b bars))
        (fun x hx => hB2 x (List.mem_cons_of_mem b hx))

/-! ## C10 — exit timestamps vs entry timestamps (corrected) -/

/-- The forced close of `barsEnd` completes the last-bar entry,
at the entry bar's own timestamp. -/
def tradeEndClosed : Trade :=
  { tradeEndOpen with
    exitDt := some 2100
    exitPrice := some 50
    rawExitPrice := some 50
    pnl := some 0
    exitReason := some .endOfData }

/-- Final state of `runBacktest` on `barsEnd` (the forced close leaves
`in_position` untouched, exactly as lines 217-230 do). -/
def sEndClosed : SimState := { sEnd with trades := [tradeEndClosed] }

theorem hrunEndClosed : runBacktest cfgT barsEnd 2100 50 = sEndClosed := by
  unfold runBacktest
  rw [hrunEnd]
  norm_num [closeOpenPosition, lastTradeOpen, updateLast, applySlippage,
    round2, sEnd, sEndClosed, tradeEndOpen, tradeEndClosed, cfgT]

/-- Counterexample to C10 as stated: when the bullish cross fires on the
final bar of the trade-instrument series (a legitimate dataset), the
END_OF_DATA forced close stamps an exit timestamp EQUAL to the entry
timestamp — the completed record `(entry 2100, exit 2100)` contradicts
"the exit timestamp is strictly later than the entry timestamp for every
completed trade record". -/
theorem c10_counterexample :
    ((runBacktest cfgT barsEnd 2100 50).trades.map
      (fun t => (t.entryDt, t.exitDt, t.exitReason))) =
    [(2100, some 2100, some ExitReason.endOfData)] := by
  rw [hrunEndClosed]
  simp [sEndClosed, tradeEndClosed, tradeEndOpen]

/-- C10 amended: for strictly increasing bar timestamps and a final
trade-instrument timestamp no earlier than any simulated bar, every
completed ledger record satisfies exit ≥ entry, and every record closed by
an in-loop exit (reason other than END_OF_DATA) satisfies the strict
inequality exit > entry; only the end-of-data forced close can stamp an
exit equal to the entry (namely when the entry fired on the final bar). -/
theorem c10_exit_after_entry (cfg : Config) (bars : List Bar) (lastTs : Nat)
    (lastClose : ℚ) (hts : ∀ x ∈ bars, 0 < x.ts)
    (hsort : List.Pairwise (fun x y : Bar => x.ts < y.ts) bars)
    (hlast : ∀ x ∈ bars, x.ts ≤ lastTs) :
    ∀ t ∈ (runBacktest cfg bars lastTs lastClose).trades, ∀ e,
      t.exitDt = some e →
      t.entryDt ≤ e ∧
        (t.exitReason ≠ some ExitReason.endOfData → t.entryDt < e) := by
  have hL : InvL (runLoop cfg bars (initState cfg)) :=
    runLoop_invL cfg bars _ (initState_invL cfg)
  have hT : InvT lastTs (runLoop cfg bars (initState cfg)) :=
    runLoop_invT cfg bars _ 0 lastTs (initState_invL cfg)
      (by intro t ht; simp [initState] at ht) hts hsort (Nat.zero_le _) hlast
  by_cases hpos : (runLoop cfg bars (initState cfg)).inPosition = true
  · obtain ⟨pre, t0, htr, ht0, hpre⟩ :=
      invL_decomp (runLoop cfg bars (initState cfg)) hL hpos
    have hopen : lastTradeOpen (runLoop cfg bars (initState cfg)).trades =
        true := by
      unfold lastTradeOpen
      rw [htr, List.getLast?_concat]
      simp [ht0]
    intro u hu e he
    have htr' : (runBacktest cfg bars lastTs lastClose).trades =
        pre ++ [{ t0 with
          exitDt := some lastTs
          exitPrice := some (applySlippage lastClose false cfg.slippage)
          rawExitPrice := some lastClose
          pnl := some (round2 ((runLoop cfg bars (initState cfg)).shares *
            (applySlippage lastClose false cfg.slippage -
              (runLoop cfg bars (initState cfg)).entryPrice)))
          exitReason := some .endOfData
          slippageCost := round2 ((runLoop cfg bars (initState cfg)).shares *
            |lastClose - applySlippage lastClose false cfg.slippage|)
          commission := 0 }] := by
      show (closeOpenPosition cfg lastTs lastClose _).trades = _
      rw [closeOpenPosition_fires cfg lastTs lastClose _ hpos hopen, htr,
        updateLast_concat]
    rw [htr'] at hu
    rcases List.mem_append.mp hu with hu | hu
    · have hu' := hT u (by rw [htr]; exact List.mem_append.mpr (Or.inl hu))
      unfold tradeTsOk at hu'
      rw [he] at hu'
      exact ⟨hu'.1.le, fun _ => hu'.1⟩
    · rcases List.mem_singleton.mp hu with rfl
      have h0 := hT t0
        (by rw [htr]; exact List.mem_append.mpr (Or.inr (List.mem_singleton.mpr rfl)))
      unfold tradeTsOk at h0
      rw [ht0] at h0
      have he' : e = lastTs := by
        have : some lastTs = some e := he
        exact (Option.some.injEq _ _ ▸ this).symm
      constructor
      · rw [he']
        exact h0
      · intro hne
        exact absurd rfl hne
  · have hskip : runBacktest cfg bars lastTs lastClose =
        runLoop cfg bars (initState cfg) :=
      closeOpenPosition_skip cfg lastTs lastClose _ (fun hc => hpos hc.1)
    rw [hskip]
    intro u hu e he
    have hu' := hT u hu
    unfold tradeTsOk at hu'
    rw [he] at hu'
    exact ⟨hu'.1.le, fun _ => hu'.1⟩

/-- Witness for the amended C10 on `barsEnd`: every completed record of the
run satisfies exit ≥ entry, strict unless force-closed. -/
theorem c10_exit_after_entry_witness :
    ((runBacktest cfgT barsEnd 2100 50).trades.all
      (fun t => match t.exitDt with
        | some e => decide (t.entryDt ≤ e) &&
            (decide (t.entryDt < e) ||
              (t.exitReason == some ExitReason.endOfData))
        | none => true)) = true := by
  rw [List.all_eq_true]
  intro t ht
  cases hx : t.exitDt with
  | none => simp
  | some e =>
      obtain ⟨h1, h2⟩ := c10_exit_after_entry cfgT barsEnd 2100 50
        (by decide) (by decide) (by decide) t ht e hx
      by_cases hr : t.exitReason = some ExitReason.endOfData
      · simp [h1, hr]
      · simp [h1, h2 hr]

/-! ## C5 — T+1 cooldown (corrected: bypassed after pending-EOD exits) -/

/-- Bar 1 of the cooldown scenario: date 11, signal below the prior SMA. -/
def barC5a : Bar :=
  { ts := 100, date := 11, qqqClose := 90, high := 46, low := 44, close := 45
    isFirstBar := true, isLastBar := false }

/-- Bar 2: date 11 last bar, bullish cross (entry), EOD bearish (latch). -/
def barC5b : Bar :=
  { ts := 101, date := 11, qqqClose := 110, high := 51, low := 49, close := 50
    isFirstBar := false, isLastBar := true }

/-- Bar 3: first bar of date 12 — pending EOD exit executes here, and the
signal is above the prior SMA. -/
def barC5c : Bar :=
  { ts := 200, date := 12, qqqClose := 110, high := 56, low := 54, close := 55
    isFirstBar := true, isLastBar := true }

def barsC5 : List Bar := [barC5a, barC5b, barC5c]

/-- The first trade of the scenario, closed by the pending-EOD exit at the
date-12 open. -/
def tradeC5a : Trade :=
  { tradeNum := 1, entryDt := 101, entryPrice := 50, rawEntryPrice := 50
    exitDt := some 200, exitPrice := some 55, rawExitPrice := some 55
    pnl := some 1000, exitReason := some .smaExitEod, slippageCost := 0
    commission := 0 }

def tradeC5aOpen : Trade :=
  { tradeC5a with
    exitDt := none
    exitPrice := none
    rawExitPrice := none
    pnl := none
    exitReason := none }

/-- The second trade: re-entered on the SAME bar (ts 200, date 12) as the
EOD exit. -/
def tradeC5b : Trade :=
  { tradeNum := 2, entryDt := 200, entryPrice := 55, rawEntryPrice := 55
    exitDt := none, exitPrice := none, rawExitPrice := none
    pnl := none, exitReason := none, slippageCost := 0, commission := 0 }

def sC5one : SimState := { initState cfgT with prevAboveSma := some false }

def sC5mid : SimState :=
  { capital := 10000, shares := 200, entryPrice := 50, highest := 51
    lastExitDate := none, lastExitWasEod := false, trades := [tradeC5aOpen]
    inPosition := true, prevAboveSma := some false, pendingEodExit := false
    totalSlippageCost := 0, totalCommissionCost := 0 }

def sC5two : SimState := { sC5mid with pendingEodExit := true }

def sC5eod : SimState :=
  { capital := 11000, shares := 0, entryPrice := 50, highest := 51
    lastExitDate := some 12, lastExitWasEod := true, trades := [tradeC5a]
    inPosition := false, prevAboveSma := some false, pendingEodExit := false
    totalSlippageCost := 0, totalCommissionCost := 0 }

def sC5midB : SimState :=
  { capital := 11000, shares := 200, entryPrice := 55, highest := 56
    lastExitDate := some 12, lastExitWasEod := false
    trades := [tradeC5a, tradeC5b], inPosition := true
    prevAboveSma := some false, pendingEodExit := false
    totalSlippageCost := 0, totalCommissionCost := 0 }

def sC5three : SimState := { sC5midB with prevAboveSma := some true }

theorem hsma11 : prevSmaLookup cfgT.smaByDate 11 = some 100 := by
  norm_num [cfgT, prevSmaLookup, smaTwoDays]

theorem hsma12 : prevSmaLookup cfgT.smaByDate 12 = some 100 := by
  norm_num [cfgT, prevSmaLookup, smaTwoDays]

theorem hc5s1 : step cfgT (initState cfgT) barC5a = sC5one := by
  rw [step_eq_of_no_prev cfgT (initState cfgT) barC5a 100 hsma11 rfl]
  norm_num [initState, sC5one, barC5a, cfgT]

theorem hentryC5 : entryBranch cfgT barC5b true false sC5one =
    (sC5mid, false) := by
  norm_num [entryBranch, applySlippage, round2, cfgT, sC5one, sC5mid,
    initState, barC5b, tradeC5aOpen, tradeC5a]
  all_goals decide

theorem heodC5 : eodPhase cfgT barC5b
    { sC5mid with prevAboveSma := some true } = sC5two := by
  norm_num [eodPhase, eodLookup, cfgT, smaTwoDays, barC5b, sC5mid, sC5two]

theorem hc5s2 : step cfgT sC5one barC5b = sC5two := by
  rw [step_eq_core cfgT sC5one barC5b 100 false hsma11 rfl,
    show decide (barC5b.qqqClose > (100 : ℚ)) = true from by
      norm_num [barC5b]]
  have hpend : pendingExitPhase cfgT barC5b sC5one = sC5one :=
    pendingExitPhase_not_first _ _ _ (by simp [sC5one, initState])
  rw [stepCore_flat_eq cfgT barC5b true sC5one sC5mid false
    (by rw [hpend]; rfl) (by rw [hpend]; exact hentryC5)]
  rw [if_neg Bool.false_ne_true]
  exact heodC5

theorem hexecC5 : pendingExecPhase cfgT barC5c sC5two = sC5eod := by
  have hfire : sC5two.pendingEodExit = true ∧ barC5c.isFirstBar = true ∧
      sC5two.inPosition = true := by
    refine ⟨rfl, rfl, rfl⟩
  unfold pendingExecPhase
  rw [if_pos hfire]
  norm_num [closeTrade, applySlippage, round2, updateLast, cfgT, sC5two,
    sC5mid, sC5eod, barC5c, tradeC5aOpen, tradeC5a]

theorem hpendC5 : pendingExitPhase cfgT barC5c sC5two = sC5eod := by
  unfold pendingExitPhase
  rw [hexecC5, pendingClearPhase_not barC5c sC5eod (by simp [sC5eod])]

theorem hentryC5b : entryBranch cfgT barC5c true false sC5eod =
    (sC5midB, false) := by
  norm_num [entryBranch, applySlippage, round2, cfgT, sC5eod, sC5midB,
    barC5c, tradeC5a, tradeC5b]

theorem heodC5b : eodPhase cfgT barC5c
    { sC5midB with prevAboveSma := some true } = sC5three := by
  norm_num [eodPhase, eodLookup, cfgT, smaTwoDays, barC5c, sC5midB, sC5three]

theorem hc5s3 : step cfgT sC5two barC5c = sC5three := by
  rw [step_eq_core cfgT sC5two barC5c 100 false hsma12 rfl,
    show decide (barC5c.qqqClose > (100 : ℚ)) = true from by
      norm_num [barC5c]]
  rw [stepCore_flat_eq cfgT barC5c true sC5two sC5midB false
    (by rw [hpendC5]; rfl) (by rw [hpendC5]; exact hentryC5b)]
  rw [if_neg Bool.false_ne_true]
  exact heodC5b

theorem hc5run : runLoop cfgT barsC5 (initState cfgT) = sC5three := by
  simp only [runLoop, barsC5, List.foldl_cons, List.foldl_nil]
  rw [hc5s1, hc5s2, hc5s3]

/-- Counterexample to C5 as stated: a pending-EOD-driven exit completes at
ts 200 on calendar date 12 (`last_exit_date = 12`), and on the very same
bar — same timestamp 200, same date 12 — a new entry IS accepted (the open
second record), because line 184 (`last_exit_date == d and not
last_exit_was_eod`) bypasses the T+1 cooldown after EOD exits. -/
theorem c5_counterexample :
    ((runLoop cfgT barsC5 (initState cfgT)).trades.map
      (fun t => (t.entryDt, t.exitDt, t.exitReason))) =
      [(101, some 200, some ExitReason.smaExitEod), (200, none, none)] ∧
    (runLoop cfgT barsC5 (initState cfgT)).lastExitDate = some 12 ∧
    barC5c.ts = 200 ∧ barC5c.date = 12 := by
  rw [hc5run]
  refine ⟨?_, rfl, rfl, rfl⟩
  simp [sC5three, sC5midB, tradeC5a, tradeC5b]

theorem pendingClearPhase_fields (b : Bar) (s : SimState) :
    (pendingClearPhase b s).trades = s.trades ∧
    (pendingClearPhase b s).inPosition = s.inPosition ∧
    (pendingClearPhase b s).lastExitDate = s.lastExitDate ∧
    (pendingClearPhase b s).lastExitWasEod = s.lastExitWasEod ∧
    (pendingClearPhase b s).prevAboveSma = s.prevAboveSma := by
  unfold pendingClearPhase
  split
  · exact ⟨rfl, rfl, rfl, rfl, rfl⟩
  · exact ⟨rfl, rfl, rfl, rfl, rfl⟩

theorem entryBranch_cooldown_trades (cfg : Config) (b : Bar) (a p : Bool)
    (s : SimState) (hd : s.lastExitDate = some b.date)
    (he : s.lastExitWasEod = false) :
    (entryBranch cfg b a p s).1.trades = s.trades := by
  unfold entryBranch
  split
  · rw [if_pos ⟨hd, he⟩]
  · rfl

/-- C5 amended: the T+1 cooldown holds exactly for the non-EOD exits — if
the most recent exit was on this bar's calendar date and was stop- or
signal-driven (`last_exit_was_eod = false`), and no pending-EOD exit is due
on this bar, the step accepts no new entry (the ledger length is
unchanged).  After a pending-EOD-driven exit the cooldown is deliberately
bypassed (`c5_counterexample` shows a same-bar re-entry). -/
theorem c5_cooldown_amended (cfg : Config) (s : SimState) (b : Bar)
    (hd : s.lastExitDate = some b.date) (he : s.lastExitWasEod = false)
    (hnp : ¬(s.pendingEodExit = true ∧ b.isFirstBar = true ∧
      s.inPosition = true)) :
    (step cfg s b).trades.length = s.trades.length := by
  cases hsma : prevSmaLookup cfg.smaByDate b.date with
  | none => rw [step_eq_of_no_sma cfg s b hsma]
  | some v =>
      cases hpv : s.prevAboveSma with
      | none => rw [step_eq_of_no_prev cfg s b v hsma hpv]
      | some pa =>
          rw [step_eq_core cfg s b v pa hsma hpv]
          have hexec := pendingExecPhase_not cfg b s hnp
          have hflds := pendingClearPhase_fields b (pendingExecPhase cfg b s)
          have h1tr : (pendingExitPhase cfg b s).trades = s.trades := by
            unfold pendingExitPhase
            exact hflds.1.trans (congrArg SimState.trades hexec)
          have h1d : (pendingExitPhase cfg b s).lastExitDate =
              some b.date := by
            unfold pendingExitPhase
            rw [hflds.2.2.1, hexec, hd]
          have h1e : (pendingExitPhase cfg b s).lastExitWasEod = false := by
            unfold pendingExitPhase
            rw [hflds.2.2.2.1, hexec, he]
          by_cases hip : (pendingExitPhase cfg b s).inPosition = true
          · rw [stepCore_open_eq cfg b _ s hip, (eodPhase_preserves _ _ _).1]
            show ((openBranch cfg b _ _ (pendingExitPhase cfg b s)).trades).length
              = s.trades.length
            rw [openBranch_trades_length, h1tr]
          · cases hbr : entryBranch cfg b (decide (b.qqqClose > v))
                ((pendingExitPhase cfg b s).prevAboveSma.getD false)
                (pendingExitPhase cfg b s) with
            | mk s2 skip =>
                have hcool := entryBranch_cooldown_trades cfg b
                  (decide (b.qqqClose > v))
                  ((pendingExitPhase cfg b s).prevAboveSma.getD false)
                  (pendingExitPhase cfg b s) h1d h1e
                rw [hbr] at hcool
                rw [stepCore_flat_eq cfg b _ s s2 skip
                  (Bool.not_eq_true _ ▸ hip) hbr]
                cases skip with
                | true =>
                    rw [if_pos rfl, hcool, h1tr]
                | false =>
                    rw [if_neg Bool.false_ne_true,
                      (eodPhase_preserves _ _ _).1]
                    show s2.trades.length = s.trades.length
                    rw [hcool, h1tr]

/-- Witness for the amended C5: a bar on the same date as a stop-driven
exit accepts no entry despite a bullish cross. -/
theorem c5_cooldown_amended_witness :
    (step cfgT sFlatT barCross22).trades.length = sFlatT.trades.length :=
  c5_cooldown_amended cfgT sFlatT barCross22 rfl rfl (by decide)

/-! ## C9 — reported win rate (corrected for `print_report`) -/

def barC9a : Bar :=
  { ts := 2000, date := 20, qqqClose := 90, high := 46, low := 44, close := 45
    isFirstBar := true, isLastBar := true }

def barC9b : Bar :=
  { ts := 2100, date := 21, qqqClose := 110, high := 51, low := 49, close := 50
    isFirstBar := true, isLastBar := true }

/-- Stop-out bar: low 46 is below the fixed stop 46.25. -/
def barC9c : Bar :=
  { ts := 2200, date := 22, qqqClose := 110, high := 47, low := 46
    close := 93 / 2, isFirstBar := true, isLastBar := true }

def barC9d : Bar :=
  { ts := 2300, date := 23, qqqClose := 90, high := 40, low := 39, close := 40
    isFirstBar := true, isLastBar := true }

def barC9e : Bar :=
  { ts := 2400, date := 24, qqqClose := 110, high := 41, low := 39, close := 40
    isFirstBar := true, isLastBar := true }

def barsC9 : List Bar := [barC9a, barC9b, barC9c, barC9d, barC9e]

def tradeC9aOpen : Trade :=
  { tradeNum := 1, entryDt := 2100, entryPrice := 50, rawEntryPrice := 50
    exitDt := none, exitPrice := none, rawExitPrice := none
    pnl := none, exitReason := none, slippageCost := 0, commission := 0 }

/-- The losing stop exit: filled at the active stop 46.25, P&L −750. -/
def tradeC9aClosed : Trade :=
  { tradeC9aOpen with
    exitDt := some 2200
    exitPrice := some (185 / 4)
    rawExitPrice := some (185 / 4)
    pnl := some (-750)
    exitReason := some .stop }

def tradeC9b : Trade :=
  { tradeNum := 2, entryDt := 2400, entryPrice := 40, rawEntryPrice := 40
    exitDt := none, exitPrice := none, rawExitPrice := none
    pnl := none, exitReason := none, slippageCost := 0, commission := 0 }

/-- The winning forced close at end of data: P&L +2312.50. -/
def tradeC9bEnd : Trade :=
  { tradeC9b with
    exitDt := some 2500
    exitPrice := some 50
    rawExitPrice := some 50
    pnl := some (4625 / 2)
    exitReason := some .endOfData }

def sC9a : SimState := { initState cfgT with prevAboveSma := some false }

def sC9b : SimState :=
  { capital := 10000, shares := 200, entryPrice := 50, highest := 51
    lastExitDate := none, lastExitWasEod := false, trades := [tradeC9aOpen]
    inPosition := true, prevAboveSma := some true, pendingEodExit := false
    totalSlippageCost := 0, totalCommissionCost := 0 }

def sC9c : SimState :=
  { capital := 9250, shares := 0, entryPrice := 50, highest := 51
    lastExitDate := some 22, lastExitWasEod := false
    trades := [tradeC9aClosed], inPosition := false
    prevAboveSma := some true, pendingEodExit := false
    totalSlippageCost := 0, totalCommissionCost := 0 }

def sC9d : SimState := { sC9c with prevAboveSma := some false }

def sC9e : SimState :=
  { capital := 9250, shares := 925 / 4, entryPrice := 40, highest := 41
    lastExitDate := some 22, lastExitWasEod := false
    trades := [tradeC9aClosed, tradeC9b], inPosition := true
    prevAboveSma := some true, pendingEodExit := false
    totalSlippageCost := 0, totalCommissionCost := 0 }

def sC9fin : SimState :=
  { sC9e with trades := [tradeC9aClosed, tradeC9bEnd], capital := 23125 / 2 }

theorem hsma22 : prevSmaLookup cfgT.smaByDate 22 = some 100 := by
  norm_num [cfgT, prevSmaLookup, smaTwoDays]

theorem hsma23 : prevSmaLookup cfgT.smaByDate 23 = some 100 := by
  norm_num [cfgT, prevSmaLookup, smaTwoDays]

theorem hsma24 : prevSmaLookup cfgT.smaByDate 24 = some 100 := by
  norm_num [cfgT, prevSmaLookup, smaTwoDays]

theorem hc9s1 : step cfgT (initState cfgT) barC9a = sC9a := by
  rw [step_eq_of_no_prev cfgT (initState cfgT) barC9a 100 hsma20 rfl]
  norm_num [initState, sC9a, barC9a, cfgT]

theorem hentryC9b : entryBranch cfgT barC9b true false sC9a =
    ({ sC9b with prevAboveSma := some false }, false) := by
  norm_num [entryBranch, applySlippage, round2, cfgT, sC9a, sC9b, initState,
    barC9b, tradeC9aOpen]
  all_goals decide

theorem hc9s2 : step cfgT sC9a barC9b = sC9b := by
  rw [step_eq_core cfgT sC9a barC9b 100 false hsma21 rfl,
    show decide (barC9b.qqqClose > (100 : ℚ)) = true from by
      norm_num [barC9b]]
  have hpend : pendingExitPhase cfgT barC9b sC9a = sC9a :=
    pendingExitPhase_not_first _ _ _ (by simp [sC9a, initState])
  rw [stepCore_flat_eq cfgT barC9b true sC9a
    { sC9b with prevAboveSma := some false } false (by rw [hpend]; rfl)
    (by rw [hpend]; exact hentryC9b)]
  rw [if_neg Bool.false_ne_true]
  norm_num [eodPhase, eodLookup, cfgT, smaTwoDays, barC9b, sC9b]

theorem hdecC9 : exitDecision true true barC9c.isLastBar barC9c.low
    barC9c.high barC9c.close
    (activeStopVal cfgT sC9b.entryPrice (max sC9b.highest barC9c.high)) =
    some (.stop, 185 / 4) := by
  norm_num [exitDecision, stopFillPrice, activeStopVal, cfgT, sC9b, barC9c]

theorem hobC9 : openBranch cfgT barC9c true true sC9b = sC9c := by
  rw [openBranch_eq_of_dec cfgT barC9c true true sC9b .stop (185 / 4) hdecC9]
  norm_num [closeTrade, applySlippage, round2, updateLast, cfgT, sC9b, sC9c,
    barC9c, tradeC9aOpen, tradeC9aClosed]

theorem hc9s3 : step cfgT sC9b barC9c = sC9c := by
  rw [step_eq_core cfgT sC9b barC9c 100 true hsma22 rfl,
    show decide (barC9c.qqqClose > (100 : ℚ)) = true from by
      norm_num [barC9c]]
  have hpend : pendingExitPhase cfgT barC9c sC9b = sC9b :=
    pendingExitPhase_not_first _ _ _ (by simp [sC9b])
  rw [stepCore_open_eq cfgT barC9c true sC9b (by rw [hpend]; rfl), hpend]
  show eodPhase cfgT barC9c
    { openBranch cfgT barC9c true ((sC9b.prevAboveSma).getD false) sC9b with
      prevAboveSma := some true } = sC9c
  rw [show (sC9b.prevAboveSma).getD false = true from rfl, hobC9]
  norm_num [eodPhase, eodLookup, cfgT, smaTwoDays, barC9c, sC9c]

theorem hc9s4 : step cfgT sC9c barC9d = sC9d := by
  rw [step_eq_core cfgT sC9c barC9d 100 true hsma23 rfl,
    show decide (barC9d.qqqClose > (100 : ℚ)) = false from by
      norm_num [barC9d]]
  have hpend : pendingExitPhase cfgT barC9d sC9c = sC9c :=
    pendingExitPhase_not_first _ _ _ (by simp [sC9c])
  rw [stepCore_flat_eq cfgT barC9d false sC9c sC9c false
    (by rw [hpend]; rfl)
    (by rw [hpend]; norm_num [entryBranch])]
  rw [if_neg Bool.false_ne_true]
  norm_num [eodPhase, eodLookup, cfgT, smaTwoDays, barC9d, sC9c, sC9d]

theorem hentryC9e : entryBranch cfgT barC9e true false sC9d =
    ({ sC9e with prevAboveSma := some false }, false) := by
  norm_num [entryBranch, applySlippage, round2, cfgT, sC9d, sC9c, sC9e,
    barC9e, tradeC9aClosed, tradeC9aOpen, tradeC9b]

theorem hc9s5 : step cfgT sC9d barC9e = sC9e := by
  rw [step_eq_core cfgT sC9d barC9e 100 false hsma24 rfl,
    show decide (barC9e.qqqClose > (100 : ℚ)) = true from by
      norm_num [barC9e]]
  have hpend : pendingExitPhase cfgT barC9e sC9d = sC9d :=
    pendingExitPhase_not_first _ _ _ (by simp [sC9d, sC9c])
  rw [stepCore_flat_eq cfgT barC9e true sC9d
    { sC9e with prevAboveSma := some false } false (by rw [hpend]; rfl)
    (by rw [hpend]; exact hentryC9e)]
  rw [if_neg Bool.false_ne_true]
  norm_num [eodPhase, eodLookup, cfgT, smaTwoDays, barC9e, sC9e]

theorem hc9run : runLoop cfgT barsC9 (initState cfgT) = sC9e := by
  simp only [runLoop, barsC9, List.foldl_cons, List.foldl_nil]
  rw [hc9s1, hc9s2, hc9s3, hc9s4, hc9s5]

theorem hc9fin : runBacktest cfgT barsC9 2500 50 = sC9fin := by
  unfold runBacktest
  rw [hc9run]
  norm_num [closeOpenPosition, lastTradeOpen, updateLast, applySlippage,
    round2, sC9e, sC9fin, tradeC9b, tradeC9bEnd, tradeC9aClosed,
    tradeC9aOpen, cfgT]

/-- Counterexample to C9 as stated: this run's finished ledger holds one
closed losing trade and one profitable END_OF_DATA ("OPEN") forced close.
`print_report` divides the win count by `max(len(closed), 1)` where
`closed` excludes the OPEN-reason trade, yet the numerator counts it — so
the reported win rate is 1 (100%), while count(pnl>0)/total over the full
ledger is 1/2. -/
theorem c9_counterexample :
    winRateRealistic (runBacktest cfgT barsC9 2500 50).trades = 1 ∧
    ((runBacktest cfgT barsC9 2500 50).trades.filter
      (fun t => match t.pnl with
        | some p => decide (0 < p)
        | none => false)).length = 1 ∧
    (runBacktest cfgT barsC9 2500 50).trades.length = 2 ∧
    winRateRealistic (runBacktest cfgT barsC9 2500 50).trades ≠
      (((runBacktest cfgT barsC9 2500 50).trades.filter
        (fun t => match t.pnl with
          | some p => decide (0 < p)
          | none => false)).length : ℚ) /
        ((runBacktest cfgT barsC9 2500 50).trades.length : ℚ) := by
  rw [hc9fin]
  refine ⟨?_, ?_, ?_, ?_⟩
  · norm_num [winRateRealistic, pnlWin, sC9fin, sC9e, tradeC9aClosed,
      tradeC9bEnd, tradeC9aOpen, tradeC9b, List.filter_cons, List.filter_nil,
      show (some ExitReason.stop = some ExitReason.endOfData) = False from by
        simp,
      show (some ExitReason.endOfData = some ExitReason.endOfData) = True from by
        simp]
  · norm_num [sC9fin, sC9e, tradeC9aClosed, tradeC9bEnd, tradeC9aOpen,
      tradeC9b]
  · norm_num [sC9fin, sC9e]
  · norm_num [winRateRealistic, pnlWin, sC9fin, sC9e, tradeC9aClosed,
      tradeC9bEnd, tradeC9aOpen, tradeC9b, List.filter_cons, List.filter_nil,
      show (some ExitReason.stop = some ExitReason.endOfData) = False from by
        simp,
      show (some ExitReason.endOfData = some ExitReason.endOfData) = True from by
        simp]

/-- C9 corrected: `backtest_v3.py` matches the claim — its win rate is
`count(pnl > 0) / total × 100` over the full ledger (END forced close
included) and 0 on an empty ledger; `sma50_realistic.py`'s `print_report`
matches the claimed formula only when no OPEN-reason (END_OF_DATA) record
is in the ledger: its denominator is `max(len(closed), 1)` with `closed`
excluding OPEN-reason trades, while its numerator counts every trade with
truthy positive P&L. -/
theorem c9_win_rate_amended (pnls : List ℚ) (trades : List Trade) :
    (winRateV3 [] = 0) ∧
    (pnls ≠ [] → winRateV3 pnls =
      ((pnls.filter (fun p => decide (0 < p))).length : ℚ) /
        (pnls.length : ℚ) * 100) ∧
    (winRateRealistic [] = 0) ∧
    ((∀ t ∈ trades, t.exitReason ≠ some ExitReason.endOfData ∧
        t.pnl.isSome) → trades ≠ [] →
      winRateRealistic trades =
        ((trades.filter (fun t => match t.pnl with
          | some p => decide (0 < p)
          | none => false)).length : ℚ) / (trades.length : ℚ)) := by
  refine ⟨rfl, ?_, by norm_num [winRateRealistic], ?_⟩
  · intro hne
    unfold winRateV3
    rw [if_neg (by simp [hne])]
  · intro hall hne
    have hclosed : trades.filter
        (fun t => decide (t.exitReason ≠ some ExitReason.endOfData)) =
        trades := by
      rw [List.filter_eq_self]
      intro t ht
      simpa using (hall t ht).1
    have hwins : trades.filter pnlWin = trades.filter
        (fun t => match t.pnl with
          | some p => decide (0 < p)
          | none => false) := by
      apply List.filter_congr
      intro t ht
      obtain ⟨-, hp⟩ := hall t ht
      obtain ⟨p, hp'⟩ := Option.isSome_iff_exists.mp hp
      by_cases h0 : 0 < p
      · simp [pnlWin, hp', h0, ne_of_gt h0]
      · simp [pnlWin, hp', h0]
    have hmax : max trades.length 1 = trades.length :=
      Nat.max_eq_left (Nat.one_le_iff_ne_zero.mpr
        (by simpa [List.length_eq_zero] using hne))
    simp only [winRateRealistic]
    rw [hclosed, hwins, hmax]

/-- Witness for the amended C9 at concrete ledgers. -/
theorem c9_win_rate_amended_witness :
    winRateV3 [(1 : ℚ), -2] =
      (([(1 : ℚ), -2].filter (fun p => decide (0 < p))).length : ℚ) /
        (([(1 : ℚ), -2].length) : ℚ) * 100 ∧
    winRateRealistic [tradeC5a] =
      (([tradeC5a].filter (fun t => match t.pnl with
        | some p => decide (0 < p)
        | none => false)).length : ℚ) / (([tradeC5a].length) : ℚ) :=
  ⟨(c9_win_rate_amended [(1 : ℚ), -2] [tradeC5a]).2.1 (by simp),
   (c9_win_rate_amended [(1 : ℚ), -2] [tradeC5a]).2.2.2 (by decide) (by simp)⟩

/-! ## C6 — the dual end-of-day check (corrected) -/

theorem v5_step_eq_of_no_prev (cfg : V5Config) (s : V5State) (b : V5Bar)
    (v : ℚ) (hsma : lookupQ cfg.prevSma b.date = some v)
    (hpv : s.prevAboveSma = none) :
    v5Step cfg s b =
      { s with prevAboveSma := some (decide (b.qqqClose > v)) } := by
  unfold v5Step
  rw [hsma, hpv]

theorem v5_step_eq_core (cfg : V5Config) (s : V5State) (b : V5Bar) (v : ℚ)
    (pa : Bool) (hsma : lookupQ cfg.prevSma b.date = some v)
    (hpv : s.prevAboveSma = some pa) :
    v5Step cfg s b = v5StepCore cfg b (decide (b.qqqClose > v)) s := by
  unfold v5Step
  rw [hsma, hpv]

theorem v5StepCore_eq (cfg : V5Config) (b : V5Bar) (a : Bool) (s : V5State)
    (s2 : V5State) (skip : Bool)
    (hbr : v5Branch b a ((v5PendingPhases b s).prevAboveSma.getD false)
      (v5PendingPhases b s) = (s2, skip)) :
    v5StepCore cfg b a s =
      (if skip then s2
       else v5EodPhase cfg b { s2 with prevAboveSma := some a }) := by
  unfold v5StepCore
  rw [hbr]
  cases skip with
  | true => rfl
  | false => rfl

theorem v5PendingPhases_idle (b : V5Bar) (s : V5State)
    (h : s.pending = V5Pending.idle) : v5PendingPhases b s = s := by
  have h1 : v5PendingExitPhase b s = s := by
    unfold v5PendingExitPhase
    rw [if_neg (fun hc => hc.1 h)]
  have h2 : v5PendingEntryPhase b s = s := by
    unfold v5PendingEntryPhase
    rw [if_neg (fun hc => by rw [h] at hc; exact absurd hc.2.1 (by decide))]
  have h3 : v5DropStrPending s = s := by
    unfold v5DropStrPending
    rw [if_neg (by rw [h]; decide)]
  unfold v5PendingPhases
  rw [h1, h2, h3]

/-- Daily closes of the C6 scenario (window 2, so `sma(d)` is the mean of
the closes of `d-1` and `d`; every valid day's close is above its own SMA,
i.e. every EOD signal is bullish). -/
def dailyC6 : List (Nat × ℚ) := [(10, 100), (11, 100), (12, 110), (13, 120), (14, 130)]

/-- `prev_sma` built by lines 42-56 from `dailyC6` with window 2. -/
def prevSmaC6 : List (Nat × ℚ) := [(12, 100), (13, 105), (14, 115)]

/-- `daily_sma`/`daily_close` of the valid days. -/
def validC6 : List (Nat × ℚ × ℚ) :=
  [(11, 100, 100), (12, 105, 110), (13, 115, 120), (14, 125, 130)]

theorem prevSmaC6_from_daily : buildPrevSmaV5 dailyC6 2 = prevSmaC6 := by
  norm_num [buildPrevSmaV5, rollingMean, dailyC6, prevSmaC6,
    show List.range 5 = [0, 1, 2, 3, 4] from by decide, List.zipWith,
    List.filterMap_cons, List.filterMap_nil]

theorem validC6_from_daily : buildSmaByDate dailyC6 2 = validC6 := by
  norm_num [buildSmaByDate, rollingMean, dailyC6, validC6,
    show List.range 5 = [0, 1, 2, 3, 4] from by decide, List.zipWith,
    List.filterMap_cons, List.filterMap_nil]

def cfgC6 : V5Config := { prevSma := prevSmaC6, valid := validC6 }

def barC6a : V5Bar :=
  { ts := 1200, date := 12, qqqClose := 90, high := 10, low := 9, close := 10
    isMarketOpen := true, isLastBar := false }

def barC6b : V5Bar :=
  { ts := 1201, date := 12, qqqClose := 95, high := 10, low := 9, close := 10
    isMarketOpen := false, isLastBar := true }

def barC6c : V5Bar :=
  { ts := 1300, date := 13, qqqClose := 100, high := 10, low := 9, close := 10
    isMarketOpen := true, isLastBar := false }

/-- The critical bar: last bar of date 13, signal below the prior SMA all
day while the day's own EOD signal is bullish. -/
def barC6d : V5Bar :=
  { ts := 1301, date := 13, qqqClose := 100, high := 10, low := 9, close := 10
    isMarketOpen := false, isLastBar := true }

/-- The next session's market-open bar. -/
def barC6e : V5Bar :=
  { ts := 1400, date := 14, qqqClose := 120, high := 10, low := 9, close := 10
    isMarketOpen := true, isLastBar := true }

def barsC6 : List V5Bar := [barC6a, barC6b, barC6c, barC6d, barC6e]

def sC6zero : V5State :=
  { capital := 10000, shares := 0, entryPrice := 0, highest := 0
    lastExitDate := none, trades := [], inPosition := false
    prevAboveSma := none, eodAboveSma := none, pending := .idle }

theorem hC6init : v5InitState validC6 0 = sC6zero := by
  norm_num [v5InitState, v5InitEod, validC6, sC6zero]

def sC6one : V5State := { sC6zero with prevAboveSma := some false }

def sC6two : V5State :=
  { sC6zero with prevAboveSma := some true, eodAboveSma := some true }

def sC6three : V5State := { sC6two with prevAboveSma := some false }

def sC6four : V5State := { sC6two with prevAboveSma := some true }

theorem hlookC6_12 : lookupQ cfgC6.prevSma 12 = some 100 := by
  norm_num [lookupQ, cfgC6, prevSmaC6, List.find?]

theorem hlookC6_13 : lookupQ cfgC6.prevSma 13 = some 105 := by
  norm_num [lookupQ, cfgC6, prevSmaC6, List.find?,
    show ((12 : Nat) == 13) = false from by decide, show ((13 : Nat) == 13) = true from by decide]

theorem hlookC6_14 : lookupQ cfgC6.prevSma 14 = some 115 := by
  norm_num [lookupQ, cfgC6, prevSmaC6, List.find?,
    show ((12 : Nat) == 14) = false from by decide, show ((13 : Nat) == 14) = false from by decide, show ((14 : Nat) == 14) = true from by decide]

theorem hc6s1 : v5Step cfgC6 sC6zero barC6a = sC6one := by
  rw [v5_step_eq_of_no_prev cfgC6 sC6zero barC6a 100 hlookC6_12 rfl]
  norm_num [sC6zero, sC6one, barC6a]

theorem hc6s2 : v5Step cfgC6 sC6one barC6b = sC6two := by
  rw [v5_step_eq_core cfgC6 sC6one barC6b 100 false hlookC6_12 rfl,
    show decide (barC6b.qqqClose > (100 : ℚ)) = false from by
      norm_num [barC6b]]
  have hpend : v5PendingPhases barC6b sC6one = sC6one :=
    v5PendingPhases_idle barC6b sC6one rfl
  rw [v5StepCore_eq cfgC6 barC6b false sC6one sC6one false
    (by rw [hpend]; norm_num [v5Branch, sC6one, sC6zero])]
  rw [if_neg Bool.false_ne_true]
  norm_num [v5EodPhase, lookupEodV5, cfgC6, validC6, List.find?, barC6b,
    sC6one, sC6two, sC6zero,
    show ((11 : Nat) == 12) = false from by decide, show ((12 : Nat) == 12) = true from by decide]

theorem hc6s3 : v5Step cfgC6 sC6two barC6c = sC6three := by
  rw [v5_step_eq_core cfgC6 sC6two barC6c 105 true hlookC6_13 rfl,
    show decide (barC6c.qqqClose > (105 : ℚ)) = false from by
      norm_num [barC6c]]
  have hpend : v5PendingPhases barC6c sC6two = sC6two :=
    v5PendingPhases_idle barC6c sC6two rfl
  rw [v5StepCore_eq cfgC6 barC6c false sC6two sC6two false
    (by rw [hpend]; norm_num [v5Branch, sC6two, sC6zero])]
  rw [if_neg Bool.false_ne_true]
  norm_num [v5EodPhase, barC6c, sC6two, sC6three, sC6zero]

theorem hc6s4 : v5Step cfgC6 sC6three barC6d = sC6four := by
  rw [v5_step_eq_core cfgC6 sC6three barC6d 105 false hlookC6_13 rfl,
    show decide (barC6d.qqqClose > (105 : ℚ)) = false from by
      norm_num [barC6d]]
  have hpend : v5PendingPhases barC6d sC6three = sC6three :=
    v5PendingPhases_idle barC6d sC6three rfl
  rw [v5StepCore_eq cfgC6 barC6d false sC6three sC6three false
    (by rw [hpend]; norm_num [v5Branch, sC6three, sC6two, sC6zero])]
  rw [if_neg Bool.false_ne_true]
  norm_num [v5EodPhase, lookupEodV5, cfgC6, validC6, List.find?, barC6d,
    sC6three, sC6four, sC6two, sC6zero,
    show ((11 : Nat) == 13) = false from by decide, show ((12 : Nat) == 13) = false from by decide, show ((13 : Nat) == 13) = true from by decide]

theorem hc6s5 : v5Step cfgC6 sC6four barC6e = sC6four := by
  rw [v5_step_eq_core cfgC6 sC6four barC6e 115 true hlookC6_14 rfl,
    show decide (barC6e.qqqClose > (115 : ℚ)) = true from by
      norm_num [barC6e]]
  have hpend : v5PendingPhases barC6e sC6four = sC6four :=
    v5PendingPhases_idle barC6e sC6four rfl
  rw [v5StepCore_eq cfgC6 barC6e true sC6four sC6four false
    (by rw [hpend]; norm_num [v5Branch, sC6four, sC6two, sC6zero])]
  rw [if_neg Bool.false_ne_true]
  norm_num [v5EodPhase, lookupEodV5, cfgC6, validC6, List.find?, barC6e,
    sC6four, sC6two, sC6zero,
    show ((11 : Nat) == 14) = false from by decide, show ((12 : Nat) == 14) = false from by decide, show ((13 : Nat) == 14) = false from by decide,
    show ((14 : Nat) == 14) = true from by decide]

theorem hc6run3 : v5Run cfgC6 [barC6a, barC6b, barC6c]
    (v5InitState validC6 0) = sC6three := by
  simp only [v5Run, List.foldl_cons, List.foldl_nil]
  rw [hC6init, hc6s1, hc6s2, hc6s3]

theorem hc6run4 : v5Run cfgC6 [barC6a, barC6b, barC6c, barC6d]
    (v5InitState validC6 0) = sC6four := by
  simp only [v5Run, List.foldl_cons, List.foldl_nil]
  rw [hC6init, hc6s1, hc6s2, hc6s3, hc6s4]

theorem hc6run5 : v5Run cfgC6 barsC6 (v5InitState validC6 0) = sC6four := by
  simp only [v5Run, barsC6, List.foldl_cons, List.foldl_nil]
  rw [hC6init, hc6s1, hc6s2, hc6s3, hc6s4, hc6s5]

/-- Counterexample to C6 as stated: entering the last bar of date 13 the
position is FLAT and the running intraday state is bearish (`some false`,
and the bar itself is below the prior SMA: 100 is not above 105), while the
day's own EOD signal is bullish (close 120 > SMA 115) — the claim then
requires a pending entry to be latched and executed at the next session's
open.  But the code compares the new EOD signal with the PREVIOUS EOD state
(`eod_above_sma`, here bullish), not with the running intraday state: no
latch is set (`pending = idle` after date 13) and no entry ever executes
(the ledger stays empty after the date-14 market-open bar). -/
theorem c6_counterexample :
    (v5Run cfgC6 [barC6a, barC6b, barC6c] (v5InitState validC6 0)).inPosition
      = false ∧
    (v5Run cfgC6 [barC6a, barC6b, barC6c]
      (v5InitState validC6 0)).prevAboveSma = some false ∧
    lookupQ cfgC6.prevSma barC6d.date = some 105 ∧
    decide (barC6d.qqqClose > (105 : ℚ)) = false ∧
    lookupEodV5 cfgC6.valid barC6d.date = some (115, 120) ∧
    ((120 : ℚ) > 115) = True ∧
    (v5Run cfgC6 [barC6a, barC6b, barC6c, barC6d]
      (v5InitState validC6 0)).pending = V5Pending.idle ∧
    (v5Run cfgC6 barsC6 (v5InitState validC6 0)).trades = [] := by
  rw [hc6run3, hc6run4, hc6run5]
  refine ⟨rfl, rfl, hlookC6_13, ?_, ?_, ?_, rfl, rfl⟩
  · norm_num [barC6d]
  · norm_num [lookupEodV5, cfgC6, validC6, List.find?, barC6d,
      show ((11 : Nat) == 13) = false from by decide, show ((12 : Nat) == 13) = false from by decide, show ((13 : Nat) == 13) = true from by decide]
  · norm_num

/-- C6 amended: at the session's last bar `sma50_v5.py` recomputes the EOD
signal from the day's own close vs the day's own SMA and resets both the
stored EOD state and the running intraday state to it; but the latch
conditions compare the new EOD signal with the PREVIOUS end-of-day state
(`eod_above_sma`), not with the running intraday state: a pending exit is
latched when OPEN with previous EOD bullish and new EOD bearish, a pending
entry when FLAT with previous EOD bearish and new EOD bullish, and nothing
is latched on the first EOD observation.  A pending entry executes at the
next 9:30 bar, fully investing at that bar's close, unless an exit already
happened that date (T+1), in which case it is dropped.  In
`sma50_realistic.py` (lines 208-215) there is no entry latch at all and the
pending exit is latched whenever the position is OPEN and the EOD signal is
bearish, with no comparison against any previous state. -/
theorem c6_eod_latch_amended (cfg5 : V5Config) (b : V5Bar) (s : V5State)
    (eodSma eodClose : ℚ) (prevEod : Bool) (cfg : Config) (rb : Bar)
    (rs : SimState) (rSma rClose : ℚ)
    (hl : b.isLastBar = true)
    (hlook : lookupEodV5 cfg5.valid b.date = some (eodSma, eodClose)) :
    (s.eodAboveSma = some prevEod →
      ((v5EodPhase cfg5 b s).eodAboveSma =
        some (decide (eodClose > eodSma)) ∧
       (v5EodPhase cfg5 b s).prevAboveSma =
        some (decide (eodClose > eodSma)) ∧
       (s.inPosition = true ∧ prevEod = true ∧
          decide (eodClose > eodSma) = false →
        (v5EodPhase cfg5 b s).pending = V5Pending.exit) ∧
       (s.inPosition = false ∧ prevEod = false ∧
          decide (eodClose > eodSma) = true →
        (v5EodPhase cfg5 b s).pending = V5Pending.entry) ∧
       (¬(s.inPosition = true ∧ prevEod = true ∧
          decide (eodClose > eodSma) = false) →
        ¬(s.inPosition = false ∧ prevEod = false ∧
          decide (eodClose > eodSma) = true) →
        (v5EodPhase cfg5 b s).pending = s.pending))) ∧
    (s.eodAboveSma = none →
      ((v5EodPhase cfg5 b s).pending = s.pending ∧
       (v5EodPhase cfg5 b s).eodAboveSma =
        some (decide (eodClose > eodSma)))) ∧
    (s.inPosition = false → s.pending = V5Pending.entry →
      b.isMarketOpen = true → s.lastExitDate ≠ some b.date →
      ((v5PendingEntryPhase b s).inPosition = true ∧
       (v5PendingEntryPhase b s).pending = V5Pending.idle ∧
       ((v5PendingEntryPhase b s).trades.getLast?).map
         (fun t => (t.entryDt, t.entryPrice)) = some (b.ts, b.close) ∧
       (v5PendingEntryPhase b s).shares = s.capital / b.close)) ∧
    (s.inPosition = false → s.pending = V5Pending.entry →
      b.isMarketOpen = true → s.lastExitDate = some b.date →
      ((v5PendingEntryPhase b s).trades = s.trades ∧
       (v5PendingEntryPhase b s).pending = V5Pending.idle ∧
       (v5PendingEntryPhase b s).inPosition = false)) ∧
    (rb.isLastBar = true → eodLookup cfg.smaByDate rb.date =
        some (rSma, rClose) →
      ((rs.inPosition = true ∧ decide (rClose > rSma) = false →
        (eodPhase cfg rb rs).pendingEodExit = true) ∧
       (¬(rs.inPosition = true ∧ decide (rClose > rSma) = false) →
        (eodPhase cfg rb rs).pendingEodExit = rs.pendingEodExit) ∧
       (eodPhase cfg rb rs).prevAboveSma =
        some (decide (rClose > rSma)))) := by
  have hv5 : v5EodPhase cfg5 b s =
      { (match s.eodAboveSma with
         | some prevEod =>
            if s.inPosition ∧ prevEod = true ∧
                decide (eodClose > eodSma) = false then
              { s with pending := .exit }
            else if s.inPosition = false ∧ prevEod = false ∧
                decide (eodClose > eodSma) = true then
              { s with pending := .entry }
            else s
         | none => s) with
        eodAboveSma := some (decide (eodClose > eodSma))
        prevAboveSma := some (decide (eodClose > eodSma)) } := by
    unfold v5EodPhase
    rw [if_pos hl, hlook]
  refine ⟨?_, ?_, ?_, ?_, ?_⟩
  · intro heod
    rw [hv5, heod]
    refine ⟨rfl, rfl, ?_, ?_, ?_⟩
    · intro hc
      dsimp only
      rw [if_pos ⟨hc.1, hc.2⟩]
    · intro hc
      dsimp only
      by_cases h1 : s.inPosition = true ∧ prevEod = true ∧
          decide (eodClose > eodSma) = false
      · rw [hc.1] at h1
        exact absurd h1.1 (by decide)
      · rw [if_neg h1, if_pos hc]
    · intro h1 h2
      dsimp only
      rw [if_neg (fun hc => h1 ⟨hc.1, hc.2⟩), if_neg h2]
  · intro heod
    rw [hv5, heod]
    exact ⟨rfl, rfl⟩
  · intro hflat hpend hopen hcool
    unfold v5PendingEntryPhase
    rw [if_pos ⟨hflat, hpend, hopen⟩, if_pos hcool]
    refine ⟨rfl, rfl, ?_, rfl⟩
    rw [List.getLast?_concat]
    rfl
  · intro hflat hpend hopen hcool
    unfold v5PendingEntryPhase
    rw [if_pos ⟨hflat, hpend, hopen⟩, if_neg (by rw [hcool]; simp)]
    exact ⟨rfl, rfl, hflat⟩
  · intro hrl hrlook
    have hre : eodPhase cfg rb rs =
        { (if rs.inPosition ∧ decide (rClose > rSma) = false then
            { rs with pendingEodExit := true }
           else rs) with
          prevAboveSma := some (decide (rClose > rSma)) } := by
      unfold eodPhase
      rw [if_pos hrl, hrlook]
    rw [hre]
    refine ⟨?_, ?_, rfl⟩
    · intro hc
      dsimp only
      rw [if_pos ⟨hc.1, hc.2⟩]
    · intro hc
      dsimp only
      rw [if_neg (fun h => hc ⟨h.1, h.2⟩)]

/-- Witness for the amended C6: a concrete latch (FLAT, previous EOD
bearish, new EOD bullish gives a pending entry) and a concrete execution of
a pending entry at a 9:30 bar. -/
theorem c6_eod_latch_amended_witness :
    (v5EodPhase cfgC6 barC6d
      { sC6three with eodAboveSma := some false }).pending =
      V5Pending.entry ∧
    (v5PendingEntryPhase barC6e
      { sC6three with pending := V5Pending.entry }).inPosition = true := by
  have h := c6_eod_latch_amended cfgC6 barC6d
    { sC6three with eodAboveSma := some false } 115 120 false cfgT barCross22
    sOpenT 100 90 rfl
    (by norm_num [lookupEodV5, cfgC6, validC6, List.find?, barC6d,
      show ((11 : Nat) == 13) = false from by decide, show ((12 : Nat) == 13) = false from by decide, show ((13 : Nat) == 13) = true from by decide])
  constructor
  · exact (h.1 rfl).2.2.2.1 ⟨rfl, rfl, by norm_num⟩
  · have h2 := c6_eod_latch_amended cfgC6 barC6e
      { sC6three with pending := V5Pending.entry } 125 130 false cfgT
      barCross22 sOpenT 100 90 rfl
      (by norm_num [lookupEodV5, cfgC6, validC6, List.find?, barC6e,
        show ((11 : Nat) == 14) = false from by decide, show ((12 : Nat) == 14) = false from by decide, show ((13 : Nat) == 14) = false from by decide,
        show ((14 : Nat) == 14) = true from by decide])
    exact (h2.2.2.1 rfl rfl rfl (by decide)).1

end ClawSkills
